import Mathlib

/-!
# Verification of the Sepai separation subsystem

Shallow embedding of the separation core of the Sepai repository
(`src/core/separation/`): the data model (`separation_data.py`,
`hybrid_data.py`), the separation engines (spot color, index color, CMYK),
the method advisor's rule-based path (`method_analyzer.py`), the regional
separator, the channel merger, the region segmenter's combination step, and
the top-level `SeparationCoordinator`.

Conventions of the embedding:
* 8-bit image samples are `ℕ` (with explicit truncation/clipping where the
  code casts to `uint8`); floating-point intermediates are `ℚ` — the ideal
  real-arithmetic semantics of the numpy float code.
* numpy `(H, W)` / `(H, W, 3)` arrays are lists of rows (`List (List α)`).
* Python exceptions are `Except String`; `dict` payloads whose keys matter
  are association lists or structures mirroring the keys actually read.
* Python objects that carry behaviour (`self.engines`, the engine objects of
  `RegionalSeparator`) are passed as explicit function arguments.
-/

/-- An 8-bit RGB pixel `(r, g, b)`, values in `0..255`. -/
abbrev RGBPix : Type := ℕ × ℕ × ℕ

/-- A Lab pixel `(L, a, b)` (float triple in the code). -/
abbrev LabPix : Type := ℚ × ℚ × ℚ

/-- An `(H, W, 3)` uint8 image: list of `H` rows of `W` RGB pixels. -/
abbrev RGBImage : Type := List (List RGBPix)

/-- An `(H, W, 3)` float Lab image. -/
abbrev LabImage : Type := List (List LabPix)

/-- A grayscale uint8 raster `(H, W)`. -/
abbrev Raster : Type := List (List ℕ)

/-- A boolean mask `(H, W)`. -/
abbrev Mask : Type := List (List Bool)

/-- Pointwise map over an `(H, W)` array. -/
def map2D (f : α → β) (m : List (List α)) : List (List β) :=
  m.map (fun row => row.map f)

/-- Model of `arr.size` of an `(H, W)` numpy array (total number of entries). -/
def size2D (m : List (List α)) : ℕ :=
  m.flatten.length

/-- Model of `np.sum(pred(arr))` over an `(H, W)` array: number of entries
satisfying `pred`. -/
def count2D (pred : α → Bool) (m : List (List α)) : ℕ :=
  m.flatten.countP pred

/-- Entry of an `(H, W)` array at row `y`, column `x` (`dflt` when out of
bounds — the code never indexes out of bounds). -/
def get2D (m : List (List α)) (y x : ℕ) (dflt : α) : α :=
  ((m.get? y).bind (fun row => row.get? x)).getD dflt

/-- Pointwise combination of two same-shape `(H, W)` arrays. -/
def zipWith2D (f : α → β → γ) (a : List (List α)) (b : List (List β)) :
    List (List γ) :=
  List.zipWith (fun ra rb => List.zipWith f ra rb) a b

/-- Three-list `zipWith` (for mask/accumulator/data combination). -/
def zipWith3 (f : α → β → γ → δ) : List α → List β → List γ → List δ
  | a :: as, b :: bs, c :: cs => f a b c :: zipWith3 f as bs cs
  | _, _, _ => []

/-- Pointwise combination of three same-shape `(H, W)` arrays. -/
def zipWith2D3 (f : α → β → γ → δ) (a : List (List α)) (b : List (List β))
    (c : List (List γ)) : List (List δ) :=
  zipWith3 (fun ra rb rc => zipWith3 f ra rb rc) a b c

/-- An `(H, W)` array filled with a constant (`np.zeros`, all-true masks). -/
def const2D (H W : ℕ) (v : α) : List (List α) :=
  List.replicate H (List.replicate W v)

/-- Model of `np.clip(q, 0, 255).astype(np.uint8)`: clip to `[0, 255]`, then
truncate to an integer (truncation toward zero equals `⌊·⌋` after the
clip makes the value nonnegative). -/
def clipU8 (q : ℚ) : ℕ :=
  (Int.toNat ⌊min (max q 0) 255⌋)

/-- Value of a Python parameter dict entry (the engines read numeric,
string and boolean values). -/
inductive PVal where
  | num (q : ℚ)
  | str (s : String)
  | bool (b : Bool)
deriving DecidableEq, Repr

/-- A Python `dict` of parameters, e.g. `{'color_tolerance': 10.0}`. -/
abbrev Params : Type := List (String × PVal)

/-- Model of `parameters.get(key, default)` for a numeric entry. -/
def Params.getNum (p : Params) (key : String) (dflt : ℚ) : ℚ :=
  match p.lookup key with
  | some (PVal.num q) => q
  | _ => dflt

/-- The `analysis_data` dict is passed through the coordinator and the
engines without being inspected by the code verified here; we model it as a
generic dict payload. -/
abbrev AnalysisDict : Type := List (String × PVal)

/-- Model of `SeparationMethod` enum of `separation_data.py` (string-valued). -/
inductive SeparationMethod where
  | SPOT_COLOR
  | SIMULATED_PROCESS
  | INDEX_COLOR
  | CMYK
  | RGB
  | HYBRID_AI
deriving DecidableEq, Repr, BEq, Inhabited

/-- The `.value` string of each `SeparationMethod` member. -/
def SeparationMethod.value : SeparationMethod → String
  | .SPOT_COLOR => "spot_color"
  | .SIMULATED_PROCESS => "simulated_process"
  | .INDEX_COLOR => "index_color"
  | .CMYK => "cmyk"
  | .RGB => "rgb"
  | .HYBRID_AI => "hybrid_ai"

/-- Model of `SeparationMethod(s)`: look a string up in the enum
(`None` models the `ValueError`). -/
def SeparationMethod.ofString (s : String) : Option SeparationMethod :=
  if s = "spot_color" then some .SPOT_COLOR
  else if s = "simulated_process" then some .SIMULATED_PROCESS
  else if s = "index_color" then some .INDEX_COLOR
  else if s = "cmyk" then some .CMYK
  else if s = "rgb" then some .RGB
  else if s = "hybrid_ai" then some .HYBRID_AI
  else none

/-- One palette entry: the dicts `{'name', 'rgb', 'lab', 'pantone_code'}`
produced by the Color Match unit. -/
structure PaletteColor where
  name : String
  rgb : RGBPix
  lab : LabPix
  pantone_code : Option String := none
deriving DecidableEq, Repr

/-- Hex digit characters used by `_rgb_to_hex`. -/
def hexDigitChar (n : ℕ) : Char :=
  if n < 10 then Char.ofNat (48 + n) else Char.ofNat (97 + (n - 10))

/-- Two lowercase hex digits of a byte (`{x:02x}`). -/
def hexByte (n : ℕ) : String :=
  String.mk [hexDigitChar ((n / 16) % 16), hexDigitChar (n % 16)]

/-- Model of `_rgb_to_hex`: `#rrggbb` for an RGB triple (shared by all engines). -/
def rgb_to_hex (rgb : RGBPix) : String :=
  "#" ++ hexByte rgb.1 ++ hexByte rgb.2.1 ++ hexByte rgb.2.2

/-- The `color_info` dict stored on every channel:
`{'rgb', 'lab', 'pantone', 'hex'}`. -/
structure ColorInfo where
  rgb : RGBPix
  lab : LabPix
  pantone : Option String := none
  hex : String := ""
deriving DecidableEq, Repr

/-- Model of `SeparationChannel` dataclass of `separation_data.py`. -/
structure SeparationChannel where
  name : String
  data : Raster
  color_info : ColorInfo
  order : ℕ
  halftone_angle : ℚ := 45
  halftone_frequency : ℚ := 55
  pixel_count : ℕ := 0
  coverage_percentage : ℚ := 0
deriving DecidableEq, Repr

/-- Model of `SeparationResult` dataclass of `separation_data.py`
(`processing_time` is wall-clock time; modelled as `0`). -/
structure SeparationResult where
  channels : List SeparationChannel
  method_used : SeparationMethod
  success : Bool
  error_message : String := ""
  processing_time : ℚ := 0
  palette_colors_used : ℕ := 0
  total_coverage : ℚ := 0
deriving DecidableEq, Repr

/-- An engine's `separate` method: it may raise
(`Except.error` = Python exception, carrying `str(e)`). -/
abbrev EngineFn : Type :=
  RGBImage → List PaletteColor → AnalysisDict → Params →
    Except String (List SeparationChannel)

/-- The coordinator's `self.engines` dict: method → engine. -/
abbrev EngineTable : Type := List (SeparationMethod × EngineFn)

/--
Model of `SeparationCoordinator.execute_separation`
(`separation_coordinator.py`, lines 43–114), with the engine table
(`self.engines`) passed explicitly.  The `try` block validates the method
(`raise ValueError` when absent from the table), runs the engine, sums the
channel coverages capping at `100`, and builds a success result; the
`except` block turns any exception into a failure result with zero channels
and message `"Separation failed: " + str(e)`.
-/
def execute_separation (engines : EngineTable) (rgb_array : RGBImage)
    (method : SeparationMethod) (palette : List PaletteColor)
    (analysis_data : AnalysisDict) (parameters : Params) : SeparationResult :=
  match engines.lookup method with
  | none =>
      { channels := []
        method_used := method
        success := false
        error_message :=
          "Separation failed: Unsupported separation method: " ++ method.value
        processing_time := 0 }
  | some engine =>
      match engine rgb_array palette analysis_data parameters with
      | .error e =>
          { channels := []
            method_used := method
            success := false
            error_message := "Separation failed: " ++ e
            processing_time := 0 }
      | .ok channels =>
          { channels := channels
            method_used := method
            success := true
            processing_time := 0
            palette_colors_used := palette.length
            total_coverage :=
              min ((channels.map (·.coverage_percentage)).sum) 100 }

/-- The dispatch-failure condition of claim C1: the method is absent from
the engine table, or the engine that the coordinator dispatches to raises. -/
def dispatchFails (engines : EngineTable) (rgb_array : RGBImage)
    (method : SeparationMethod) (palette : List PaletteColor)
    (analysis_data : AnalysisDict) (parameters : Params) : Prop :=
  match engines.lookup method with
  | none => True
  | some engine =>
      ∃ e, engine rgb_array palette analysis_data parameters = .error e

instance (engines : EngineTable) (rgb_array : RGBImage)
    (method : SeparationMethod) (palette : List PaletteColor)
    (analysis_data : AnalysisDict) (parameters : Params) :
    Decidable (dispatchFails engines rgb_array method palette
      analysis_data parameters) := by
  unfold dispatchFails
  rcases engines.lookup method with _ | engine
  · exact isTrue trivial
  · rcases h : engine rgb_array palette analysis_data parameters with e | cs
    · exact isTrue ⟨e, h⟩
    · refine isFalse ?_
      rintro ⟨e, he⟩
      rw [h] at he
      exact Except.noConfusion he

/-! ## SpotColorEngine (`engines/spot_color_engine.py`)

`SpotColorEngine._rgb_to_lab` converts the RGB image to Lab through cube
roots (`np.power(x, 1/3)`), which have no exact rational representation;
the conversion is therefore passed to `SpotColorEngine.separate` as an
explicit function argument.  Everything downstream of the conversion is
embedded exactly. -/

/-- Squared Euclidean Lab distance between two Lab pixels; the code's
`delta_e` (line 130 of `spot_color_engine.py`) is its square root. -/
def labDistSq (p q : LabPix) : ℚ :=
  (p.1 - q.1) ^ 2 + (p.2.1 - q.2.1) ^ 2 + (p.2.2 - q.2.2) ^ 2

/--
The per-pixel value of `_extract_color_channel`, as a function of the
squared distance `dsq = delta_e²` and squared tolerance
`tolSq = tolerance²`: `0` outside the mask `delta_e ≤ tolerance`, and the
`uint8` truncation of `255 * (1 - delta_e / tolerance)` inside it.

Since `delta_e = √dsq` is irrational in general, the truncated value is
computed exactly by counting the integers `k ∈ [1, 255]` with
`k ≤ 255 - 255·√dsq/tol`, each comparison decided on squares; theorem
`spotPixelValue_eq_floor` proves this equals
`⌊255 * (1 - √dsq / tol)⌋` over the reals.
-/
def spotPixelValue (dsq tolSq : ℚ) : ℕ :=
  if dsq ≤ tolSq then
    ((Finset.range 256).filter
      (fun (k : ℕ) => 1 ≤ k ∧ (255 : ℚ) ^ 2 * dsq ≤ tolSq * ((255 : ℚ) - (k : ℚ)) ^ 2)).card
  else 0

/-- Model of `SpotColorEngine._extract_color_channel` (lines 107–137): grayscale
channel from per-pixel Lab distance to `target_lab`. -/
def extract_color_channel (lab_array : LabImage) (target_lab : LabPix)
    (tolerance : ℚ) : Raster :=
  map2D (fun p => spotPixelValue (labDistSq p target_lab) (tolerance ^ 2))
    lab_array

/--
Model of `SpotColorEngine.separate` (lines 17–74): one channel per palette color,
halftone angle `45 + 15·idx`, frequency `55`, with nonzero-pixel count and
coverage statistics.  `rgb_to_lab` stands for `self._rgb_to_lab` (see the
section comment).
-/
def SpotColorEngine.separate (rgb_to_lab : RGBImage → LabImage)
    (rgb_array : RGBImage) (palette : List PaletteColor)
    (_analysis_data : AnalysisDict) (parameters : Params) :
    List SeparationChannel :=
  let tolerance := Params.getNum parameters "color_tolerance" 10
  let lab_array := rgb_to_lab rgb_array
  palette.enum.map (fun ic =>
    let idx := ic.1
    let color_info := ic.2
    let channel_data := extract_color_channel lab_array color_info.lab tolerance
    let pixel_count := count2D (fun v => decide (0 < v)) channel_data
    let coverage := (pixel_count : ℚ) / (size2D channel_data : ℚ) * 100
    { name := color_info.name
      data := channel_data
      color_info :=
        { rgb := color_info.rgb
          lab := color_info.lab
          pantone := color_info.pantone_code
          hex := rgb_to_hex color_info.rgb }
      order := idx + 1
      halftone_angle := 45 + idx * 15
      halftone_frequency := 55
      pixel_count := pixel_count
      coverage_percentage := coverage })

/-! ## CMYKEngine (`engines/cmyk_engine.py`)

`_rgb_to_cmyk` is pure rational arithmetic and is embedded exactly
(pointwise; the numpy code computes the same planes vectorized).
`_rgb_to_lab_single`, used only for channel metadata, involves cube roots
and is passed as a function argument. -/

/-- Model of `CMYKEngine._rgb_to_cmyk` (lines 95–121) at one pixel: normalize to
`[0,1]`, `K = 1 - max(R,G,B)`, `C,M,Y = (1-channel-K)/(1-K)` with the
denominator replaced by `1e-10` when it is zero, then
`np.clip(·*255, 0, 255).astype(np.uint8)`. -/
def rgb_to_cmyk_pixel (p : RGBPix) : ℕ × ℕ × ℕ × ℕ :=
  let r := (p.1 : ℚ) / 255
  let g := (p.2.1 : ℚ) / 255
  let b := (p.2.2 : ℚ) / 255
  let k := 1 - max r (max g b)
  let k_inv0 := 1 - k
  let k_inv := if k_inv0 = 0 then 1 / 10 ^ 10 else k_inv0
  let c := (1 - r - k) / k_inv
  let m := (1 - g - k) / k_inv
  let y := (1 - b - k) / k_inv
  (clipU8 (c * 255), clipU8 (m * 255), clipU8 (y * 255), clipU8 (k * 255))

/-- Model of `CMYKEngine.separate` (lines 17–93): the four fixed process channels
Cyan 15°, Magenta 75°, Yellow 0°, Black 45°, ignoring the palette.
`rgb_to_lab_single` stands for `self._rgb_to_lab_single` (metadata only). -/
def CMYKEngine.separate (rgb_to_lab_single : RGBPix → LabPix)
    (rgb_array : RGBImage) (_palette : List PaletteColor)
    (_analysis_data : AnalysisDict) (_parameters : Params) :
    List SeparationChannel :=
  let cmyk_array := map2D rgb_to_cmyk_pixel rgb_array
  let cmyk_channels : List (String × Raster × RGBPix × ℚ) :=
    [("Cyan", map2D (fun q => q.1) cmyk_array, (0, 255, 255), 15),
     ("Magenta", map2D (fun q => q.2.1) cmyk_array, (255, 0, 255), 75),
     ("Yellow", map2D (fun q => q.2.2.1) cmyk_array, (255, 255, 0), 0),
     ("Black", map2D (fun q => q.2.2.2) cmyk_array, (0, 0, 0), 45)]
  cmyk_channels.enum.map (fun ic =>
    let idx := ic.1
    let ch := ic.2
    let pixel_count := count2D (fun v => decide (0 < v)) ch.2.1
    let coverage := (pixel_count : ℚ) / (size2D ch.2.1 : ℚ) * 100
    { name := ch.1
      data := ch.2.1
      color_info :=
        { rgb := ch.2.2.1
          lab := rgb_to_lab_single ch.2.2.1
          pantone := none
          hex := rgb_to_hex ch.2.2.1 }
      order := idx + 1
      halftone_angle := ch.2.2.2
      halftone_frequency := 55
      pixel_count := pixel_count
      coverage_percentage := coverage })

/-! ## IndexColorEngine (`engines/index_color_engine.py`)

As with the spot engine, `_rgb_to_lab` (cube roots) is a function
argument.  `np.argmin` over `np.sqrt` of squared distances returns the
first index attaining the minimum; since `√` is strictly monotone, this
equals the first argmin of the squared distances, which is what the
embedding computes (exact rational arithmetic, no square roots needed). -/

/-- Model of `parameters.get(key, default)` for a string entry. -/
def Params.getStr (p : Params) (key : String) (dflt : String) : String :=
  match p.lookup key with
  | some (PVal.str s) => s
  | _ => dflt

/-- Replace the `n`-th entry of a list using `f` (no-op out of bounds). -/
def modifyList (f : α → α) : ℕ → List α → List α
  | _, [] => []
  | 0, a :: rest => f a :: rest
  | n + 1, a :: rest => a :: modifyList f n rest

/-- Replace entry `(y, x)` of an `(H, W)` array using `f`. -/
def modify2D (f : α → α) (y x : ℕ) (m : List (List α)) : List (List α) :=
  modifyList (fun row => modifyList f x row) y m

/-- Accumulator loop of `np.argmin`: first index of the minimum. -/
def argminAux (bestIdx : ℕ) (bestVal : ℚ) (i : ℕ) : List ℚ → ℕ
  | [] => bestIdx
  | v :: vs =>
      if v < bestVal then argminAux i v (i + 1) vs
      else argminAux bestIdx bestVal (i + 1) vs

/-- Model of `np.argmin`: index of the first minimal entry (`0` on the empty list,
where numpy raises instead). -/
def argminIdx : List ℚ → ℕ
  | [] => 0
  | v :: vs => argminAux 0 v 1 vs

/-- Index of the palette color nearest (in Lab distance) to pixel `p`
— lines 133–135 / 154–156 of `index_color_engine.py`, on squared
distances (see the section comment). -/
def nearestColorIdx (palette_lab : List LabPix) (p : LabPix) : ℕ :=
  argminIdx (palette_lab.map (fun c => labDistSq p c))

/-- Componentwise `p + frac * err` on a Lab pixel (error diffusion). -/
def labAddScaled (p err : LabPix) (frac : ℚ) : LabPix :=
  (p.1 + err.1 * frac, p.2.1 + err.2.1 * frac, p.2.2 + err.2.2 * frac)

/-- State of the Floyd–Steinberg loop: the working Lab buffer and the
index map built so far. -/
structure FSState where
  work : LabImage
  indices : List (List ℕ)
deriving DecidableEq, Repr

/-- One iteration of the Floyd–Steinberg loop body
(lines 129–151 of `index_color_engine.py`) at pixel `(y, x)`:
assign the nearest palette color, write it into the working buffer, and
diffuse the quantization error with weights 7/16, 3/16, 5/16, 1/16. -/
def fsStep (palette_lab : List LabPix) (height width : ℕ)
    (st : FSState) (yx : ℕ × ℕ) : FSState :=
  let y := yx.1
  let x := yx.2
  let old_pixel := get2D st.work y x (0, 0, 0)
  let closest_idx := nearestColorIdx palette_lab old_pixel
  let new_pixel := palette_lab.getD closest_idx (0, 0, 0)
  let indices := modify2D (fun _ => closest_idx) y x st.indices
  let work := modify2D (fun _ => new_pixel) y x st.work
  let error : LabPix :=
    (old_pixel.1 - new_pixel.1, old_pixel.2.1 - new_pixel.2.1,
     old_pixel.2.2 - new_pixel.2.2)
  let work :=
    if x + 1 < width then
      modify2D (fun p => labAddScaled p error (7 / 16)) y (x + 1) work
    else work
  let work :=
    if y + 1 < height then
      let work :=
        if 0 < x then
          modify2D (fun p => labAddScaled p error (3 / 16)) (y + 1) (x - 1) work
        else work
      let work := modify2D (fun p => labAddScaled p error (5 / 16)) (y + 1) x work
      if x + 1 < width then
        modify2D (fun p => labAddScaled p error (1 / 16)) (y + 1) (x + 1) work
      else work
    else work
  { work := work, indices := indices }

/-- Row-major pixel coordinates of an `height × width` image. -/
def rowMajorCoords (height width : ℕ) : List (ℕ × ℕ) :=
  ((List.range height).map (fun y => (List.range width).map (fun x => (y, x)))).flatten

/-- Model of `IndexColorEngine._quantize_to_palette` (lines 108–158): per-pixel
nearest palette index, either through the sequential Floyd–Steinberg loop
or vectorized without dithering. -/
def quantize_to_palette (lab_array : LabImage) (palette_lab : List LabPix)
    (dither_method : String) : List (List ℕ) :=
  let height := lab_array.length
  let width := (lab_array.headD []).length
  if dither_method = "floyd_steinberg" then
    (((rowMajorCoords height width).foldl (fsStep palette_lab height width)
      { work := lab_array, indices := const2D height width 0 })).indices
  else
    map2D (nearestColorIdx palette_lab) lab_array

/-- Model of `IndexColorEngine.separate` (lines 17–78): quantize to the palette,
then one `0/255` channel per palette color with count and coverage. -/
def IndexColorEngine.separate (rgb_to_lab : RGBImage → LabImage)
    (rgb_array : RGBImage) (palette : List PaletteColor)
    (_analysis_data : AnalysisDict) (parameters : Params) :
    List SeparationChannel :=
  let dither_method := Params.getStr parameters "dither_method" "floyd_steinberg"
  let lab_array := rgb_to_lab rgb_array
  let color_indices :=
    quantize_to_palette lab_array (palette.map (fun c => c.lab)) dither_method
  palette.enum.map (fun ic =>
    let idx := ic.1
    let color_info := ic.2
    let mask := map2D (fun v => if v = idx then 255 else 0) color_indices
    let pixel_count := count2D (fun v => decide (0 < v)) mask
    let coverage := (pixel_count : ℚ) / (size2D mask : ℚ) * 100
    { name := color_info.name
      data := mask
      color_info :=
        { rgb := color_info.rgb
          lab := color_info.lab
          pantone := color_info.pantone_code
          hex := rgb_to_hex color_info.rgb }
      order := idx + 1
      halftone_angle := 45 + idx * 15
      halftone_frequency := 55
      pixel_count := pixel_count
      coverage_percentage := coverage })

/-! ## Hybrid data model (`hybrid_data.py`) -/

/-- Model of `RegionType` enum. -/
inductive RegionType where
  | VECTOR
  | PHOTO
  | TEXT
  | MIXED
  | BACKGROUND
deriving DecidableEq, Repr, Inhabited

/-- Model of `ContentComplexity` enum. -/
inductive ContentComplexity where
  | SIMPLE
  | MODERATE
  | COMPLEX
deriving DecidableEq, Repr, Inhabited

/-- Model of `ImageRegion` dataclass. -/
structure ImageRegion where
  id : String
  region_type : RegionType
  complexity : ContentComplexity
  mask : Mask
  bounding_box : ℕ × ℕ × ℕ × ℕ
  pixel_count : ℕ
  coverage_percentage : ℚ
  dominant_colors : List RGBPix
  has_gradients : Bool
  edge_sharpness : ℚ
  texture_score : ℚ
  recommended_method : SeparationMethod
  method_confidence : ℚ
  reasoning : String
  priority : ℕ
deriving DecidableEq, Repr

/-- Model of `RegionAnalysisResult` dataclass (the AI metadata fields
`gemini_response`/`timestamp` and the quality-prediction numbers are
carried opaquely by the pipeline and are trimmed to the fields the
verified code reads). -/
structure RegionAnalysisResult where
  regions : List ImageRegion
  region_count : ℕ
  strategy_summary : String
  complexity_rating : String
  method_assignments : List (String × SeparationMethod)
  expected_quality : String
  expected_channels : ℕ
  overall_confidence : ℚ
deriving DecidableEq, Repr

/-- Model of `HybridSeparationParameters` dataclass. -/
structure HybridSeparationParameters where
  min_region_size : ℕ := 1000
  edge_sensitivity : ℚ := 1 / 2
  blend_edges : Bool := true
  blend_radius : ℕ := 15
  prefer_spot_color : Bool := true
  allow_mixed_method : Bool := true
  detail_level : String := "high"
  custom_region_methods : Option (List (String × SeparationMethod)) := none
deriving DecidableEq, Repr

/-- Model of `RegionalSeparationResult` dataclass. -/
structure RegionalSeparationResult where
  region_id : String
  region : ImageRegion
  method : SeparationMethod
  channels : List SeparationChannel
  success : Bool
  error : Option String := none
deriving DecidableEq, Repr

/-! ## RegionalSeparator (`regional_separator.py`)

The three engine objects built in `__init__` (`self.spot_engine`,
`self.simulated_engine`, `self.index_engine`) are passed as explicit
`EngineFn` arguments; an engine may raise (`Except.error`). -/

/-- Model of `RegionalSeparator._extract_region_image` (lines 101–123): copy the
image, filling non-region pixels with the white value of the buffer's
dtype (`[255,255,255]` for uint8 RGB, `[100,0,0]` for float Lab). -/
def extract_region_image (white : α) (image : List (List α)) (mask : Mask) :
    List (List α) :=
  zipWith2D (fun p m => if m then p else white) image mask

/-- Model of `RegionalSeparator._get_engine_for_method` (lines 125–135). -/
def get_engine_for_method (spot_engine simulated_engine index_engine : EngineFn) :
    SeparationMethod → EngineFn
  | .SPOT_COLOR => spot_engine
  | .SIMULATED_PROCESS => simulated_engine
  | .INDEX_COLOR => index_engine
  | _ => index_engine

/-- Model of `RegionalSeparator._get_parameters_for_region` (lines 137–162). -/
def get_parameters_for_region (region : ImageRegion) : Params :=
  match region.recommended_method with
  | .SPOT_COLOR =>
      [("color_tolerance",
        PVal.num (if 8 / 10 < region.edge_sharpness then 15 else 20)),
       ("edge_smoothing", PVal.bool (decide (region.edge_sharpness < 7 / 10)))]
  | .SIMULATED_PROCESS =>
      [("dither_method",
        PVal.str (if region.has_gradients then "error_diffusion" else "none")),
       ("halftone_method", PVal.str "stochastic")]
  | .INDEX_COLOR =>
      [("dither_method",
        PVal.str (if region.has_gradients then "floyd_steinberg" else "none"))]
  | _ => []

/-- Model of `RegionalSeparator.separate_regions` (lines 30–99): one result per
region, in order; an engine exception is caught and recorded as a failed
result with no channels, without aborting the remaining regions. -/
def RegionalSeparator.separate_regions
    (spot_engine simulated_engine index_engine : EngineFn)
    (rgb_image : RGBImage) (lab_image : LabImage)
    (region_analysis : RegionAnalysisResult) (palette : List PaletteColor)
    (analysis_data : AnalysisDict) : List RegionalSeparationResult :=
  region_analysis.regions.map (fun region =>
    let region_rgb := extract_region_image ((255, 255, 255) : RGBPix) rgb_image region.mask
    let _region_lab := extract_region_image ((100, 0, 0) : LabPix) lab_image region.mask
    let engine :=
      get_engine_for_method spot_engine simulated_engine index_engine
        region.recommended_method
    let parameters := get_parameters_for_region region
    match engine region_rgb palette analysis_data parameters with
    | .ok channels =>
        { region_id := region.id
          region := region
          method := region.recommended_method
          channels := channels
          success := true }
    | .error e =>
        { region_id := region.id
          region := region
          method := region.recommended_method
          channels := []
          success := false
          error := some e })

/-! ## ChannelMerger (`channel_merger.py`)

`_create_blended_mask` is a Gaussian blur (cv2/scipy); it is passed as a
function argument `blur`, used only when `blend_edges` is enabled.
`_extract_palette_colors` normalizes object/dict palettes into the dict
form `{'name','rgb','lab','pantone','hex'}`, which is exactly our
`PaletteColor`, so the palette is used directly. -/

/-- Model of `ChannelMerger._find_matching_channel` (lines 143–156): first channel
matching the target color by name or by `color_info['rgb']`. -/
def find_matching_channel (channels : List SeparationChannel)
    (target_color : PaletteColor) : Option SeparationChannel :=
  channels.find? (fun ch =>
    ch.name == target_color.name || ch.color_info.rgb == target_color.rgb)

/-- The body of the per-region accumulation loop of
`merge_regional_channels` (lines 64–89) for one palette color: skip failed
results; otherwise blend (`merged += data * blurred_mask`) or take the hard
maximum under the region mask. -/
def mergeStep (blend_edges : Bool) (blur : Mask → ℕ → List (List ℚ))
    (blend_radius : ℕ) (color : PaletteColor)
    (merged_data : List (List ℚ)) (regional : RegionalSeparationResult) :
    List (List ℚ) :=
  if !regional.success then merged_data
  else
    match find_matching_channel regional.channels color with
    | none => merged_data
    | some matching_channel =>
        if blend_edges then
          let blended_mask := blur regional.region.mask blend_radius
          zipWith2D3 (fun (acc : ℚ) (d : ℕ) (w : ℚ) => acc + (d : ℚ) * w)
            merged_data matching_channel.data blended_mask
        else
          zipWith2D3 (fun (m : Bool) (acc : ℚ) (d : ℕ) => if m then max acc (d : ℚ) else acc)
            regional.region.mask merged_data matching_channel.data

/-- Model of `ChannelMerger.merge_regional_channels` (lines 29–113): one merged
channel per palette color, accumulated over the regional results and then
clipped to `[0, 255]` and cast to uint8, with recomputed statistics. -/
def ChannelMerger.merge_regional_channels (blur : Mask → ℕ → List (List ℚ))
    (regional_results : List RegionalSeparationResult)
    (palette : List PaletteColor) (image_shape : ℕ × ℕ)
    (parameters : HybridSeparationParameters) : List SeparationChannel :=
  let height := image_shape.1
  let width := image_shape.2
  palette.enum.map (fun ic =>
    let color_idx := ic.1
    let color := ic.2
    let merged_q := regional_results.foldl
      (mergeStep parameters.blend_edges blur parameters.blend_radius color)
      (const2D height width (0 : ℚ))
    let merged_data := map2D clipU8 merged_q
    let pixel_count := count2D (fun v => decide (0 < v)) merged_data
    let coverage := (pixel_count : ℚ) / (size2D merged_data : ℚ) * 100
    { name := color.name
      data := merged_data
      color_info :=
        { rgb := color.rgb
          lab := color.lab
          pantone := color.pantone_code
          hex := rgb_to_hex color.rgb }
      order := color_idx + 1
      halftone_angle := 45 + color_idx * 15
      halftone_frequency := 55
      pixel_count := pixel_count
      coverage_percentage := coverage })

/-! ## RegionSegmenter combination step (`region_segmenter.py`)

Only the deterministic combination logic (`_combine_segmentations`,
lines 263–307) and the size filter (`_filter_small_regions`) are embedded;
the three upstream segmentation techniques (canny/slic/cv2 based) produce
the mask lists that are this code's inputs. -/

/-- State threaded through `_combine_segmentations`: the ownership
`vote_map` (0 = unassigned), the next `region_id`, and the accumulated
`combined` list of masks. -/
structure CombineState where
  vote_map : List (List ℕ)
  region_id : ℕ
  combined : List Mask
deriving DecidableEq, Repr

/-- Model of `unassigned = (vote_map == 0) & mask`. -/
def unassignedOf (vote_map : List (List ℕ)) (mask : Mask) : Mask :=
  zipWith2D (fun v m => decide (v = 0) && m) vote_map mask

/-- Write `region_id` into the vote map under a mask
(`vote_map[mask] = region_id`). -/
def assignVotes (vote_map : List (List ℕ)) (mask : Mask) (rid : ℕ) :
    List (List ℕ) :=
  zipWith2D (fun v m => if m then rid else v) vote_map mask

/-- Edge-region step of `_combine_segmentations` (lines 281–286): keep the
mask whole when it has more than 500 pixels. -/
def edgeStep (st : CombineState) (mask : Mask) : CombineState :=
  if 500 < count2D (fun b => b) mask then
    { vote_map := assignVotes st.vote_map mask st.region_id
      region_id := st.region_id + 1
      combined := st.combined ++ [mask] }
  else st

/-- Color-region step of `_combine_segmentations` (lines 288–296): keep
the still-unassigned portion of the mask when both the mask and that
portion have more than 500 pixels — thresholds hardcoded to 500. -/
def colorStep (st : CombineState) (mask : Mask) : CombineState :=
  if 500 < count2D (fun b => b) mask then
    let unassigned := unassignedOf st.vote_map mask
    if 500 < count2D (fun b => b) unassigned then
      { vote_map := assignVotes st.vote_map unassigned st.region_id
        region_id := st.region_id + 1
        combined := st.combined ++ [unassigned] }
    else st
  else st

/-- Texture-region step of `_combine_segmentations` (lines 298–305),
threshold 1000 on the unassigned portion. -/
def textureStep (st : CombineState) (mask : Mask) : CombineState :=
  let unassigned := unassignedOf st.vote_map mask
  if 1000 < count2D (fun b => b) unassigned then
    { vote_map := assignVotes st.vote_map unassigned st.region_id
      region_id := st.region_id + 1
      combined := st.combined ++ [unassigned] }
  else st

/-- Model of `RegionSegmenter._combine_segmentations` (lines 263–307): edge regions
first, then color regions restricted to unassigned pixels, then — only if
fewer than 2 regions resulted — texture regions. -/
def combine_segmentations (edge_regions color_regions texture_regions : List Mask)
    (image_shape : ℕ × ℕ) : List Mask :=
  let st0 : CombineState :=
    { vote_map := const2D image_shape.1 image_shape.2 0
      region_id := 1
      combined := [] }
  let st1 := edge_regions.foldl edgeStep st0
  let st2 := color_regions.foldl colorStep st1
  let st3 :=
    if st2.combined.length < 2 then texture_regions.foldl textureStep st2
    else st2
  st3.combined

/-- Model of `RegionSegmenter._filter_small_regions` (lines 309–315). -/
def filter_small_regions (regions : List Mask) (min_size : ℕ) : List Mask :=
  regions.filter (fun r => decide (min_size ≤ count2D (fun b => b) r))

/-! ## AIMethodAnalyzer rule-based path (`method_analyzer.py`)

The Gemini request path is external I/O; the deterministic fallback
(`_get_rule_based_recommendations`, lines 221–275) and the scoring/sorting
step (`_score_all_methods`, lines 277–297 with
`_create_method_recommendation`, lines 300–337) are embedded. -/

/-- The context dict built by `_build_analysis_context`
(`palette_colors`, used only to word the AI prompt, is trimmed). -/
structure ImageCharacteristics where
  edge_type : String
  has_gradients : Bool
  texture_type : String
  line_work_score : ℚ
  total_colors : ℕ
  complexity : ℚ
deriving DecidableEq, Repr

/-- Analysis context: `{'color_count', 'image_characteristics'}`. -/
structure AnalysisContext where
  color_count : ℕ
  image_characteristics : ImageCharacteristics
deriving DecidableEq, Repr

/-- A recommendation dict of the shape produced by
`_get_rule_based_recommendations` (and expected from the AI JSON). -/
structure RecDict where
  method : String
  score : ℚ
  confidence : ℚ
  reasoning : String
  strengths : List String
  limitations : List String
  expected_channels : ℕ
  quality : String
deriving DecidableEq, Repr

/-- The `{'recommended': ..., 'alternatives': [...]}` payload. -/
structure RuleRecommendations where
  recommended : RecDict
  alternatives : List RecDict
deriving DecidableEq, Repr

/-- Model of `AIMethodAnalyzer._get_rule_based_recommendations` (lines 221–275):
the fixed if/elif rule chain, always offering CMYK (score 65) as the
single alternative. -/
def get_rule_based_recommendations (context : AnalysisContext) :
    RuleRecommendations :=
  let color_count := context.color_count
  let chars := context.image_characteristics
  let prim : String × ℚ × String × List String × List String :=
    if color_count ≤ 6 ∧ chars.edge_type = "sharp" ∧ ¬chars.has_gradients then
      ("spot_color", 90,
       "Few colors with sharp edges ideal for spot color separation",
       ["Crisp edges", "Accurate color matching", "Cost-effective"],
       ["Cannot handle gradients well"])
    else if chars.texture_type = "photo" ∧ chars.has_gradients then
      ("simulated_process", 85,
       "Photo texture and gradients work best with simulated process",
       ["Smooth gradients", "Photorealistic quality", "Good detail"],
       ["More complex printing", "Higher cost"])
    else if 6 ≤ color_count ∧ color_count ≤ 12 then
      ("index_color", 80,
       "Moderate color count balanced with index color separation",
       ["Good quality/cost balance", "Handles moderate complexity"],
       ["May show banding in gradients"])
    else
      ("simulated_process", 75,
       "Complex image best handled by simulated process",
       ["Handles complexity well", "Good overall quality"],
       ["Higher printing cost"])
  { recommended :=
      { method := prim.1
        score := prim.2.1
        confidence := 3 / 4
        reasoning := prim.2.2.1
        strengths := prim.2.2.2.1
        limitations := prim.2.2.2.2
        expected_channels := min color_count 8
        quality := "good" }
    alternatives :=
      [{ method := "cmyk"
         score := 65
         confidence := 7 / 10
         reasoning := "Standard CMYK always available as fallback"
         strengths := ["Industry standard", "Predictable results"]
         limitations := ["Limited to 4 colors", "Less accurate color matching"]
         expected_channels := 4
         quality := "fair" }] }

/-- First-character capitalization of a word (Python `str.title` on the
lowercase-ASCII method names the analyzer handles). -/
def titleWord (w : String) : String :=
  match w.data with
  | [] => ""
  | c :: cs => String.mk (c.toUpper :: cs.map Char.toLower)

/-- Model of `method_str.replace('_', ' ').title()`. -/
def methodDisplayName (s : String) : String :=
  String.intercalate " "
    (((s.splitOn "_").map titleWord))

/-- Model of `AIMethodAnalyzer._get_best_for_text` (lines 339–350). -/
def get_best_for_text (method : String) : String :=
  if method = "spot_color" then "Logos, graphics, text with solid colors"
  else if method = "simulated_process" then
    "Photographs, complex artwork, fine art prints"
  else if method = "index_color" then "Illustrations with moderate gradients"
  else if method = "cmyk" then "Standard commercial printing"
  else if method = "rgb" then "Experimental applications only"
  else if method = "hybrid_ai" then
    "Complex images with both vector and photo elements"
  else "General use"

/-- Model of `AIMethodAnalyzer._estimate_complexity` (lines 352–363). -/
def estimate_complexity (method : String) : String :=
  if method = "spot_color" then "low"
  else if method = "index_color" then "moderate"
  else if method = "simulated_process" then "high"
  else if method = "cmyk" then "moderate"
  else if method = "rgb" then "low"
  else if method = "hybrid_ai" then "very_high"
  else "moderate"

/-- Model of `AIMethodAnalyzer._estimate_cost` (lines 365–372). -/
def estimate_cost (channel_count : ℕ) : String :=
  if channel_count ≤ 4 then "low"
  else if channel_count ≤ 8 then "medium"
  else "high"

/-- Model of `MethodRecommendation` dataclass of `separation_data.py`
(`expected_results` and `palette_utilization` dicts flattened to their
fixed keys). -/
structure MethodRecommendation where
  method : SeparationMethod
  method_name : String
  score : ℚ
  confidence : ℚ
  reasoning : String
  strengths : List String
  limitations : List String
  best_for : String
  expected_channel_count : ℕ
  expected_quality : String
  expected_complexity : String
  expected_cost : String
  colors_used : ℕ
  colors_total : ℕ
  utilization_percentage : ℚ
deriving DecidableEq, Repr

/-- Model of `AIMethodAnalyzer._create_method_recommendation` (lines 300–337):
validate the method string (falling back to spot color on a
`ValueError`) and assemble the record. -/
def create_method_recommendation (method_data : RecDict)
    (context : AnalysisContext) : MethodRecommendation :=
  let method :=
    match SeparationMethod.ofString method_data.method with
    | some m => m
    | none => SeparationMethod.SPOT_COLOR
  { method := method
    method_name := methodDisplayName method_data.method
    score := method_data.score
    confidence := method_data.confidence
    reasoning := method_data.reasoning
    strengths := method_data.strengths
    limitations := method_data.limitations
    best_for := get_best_for_text method_data.method
    expected_channel_count := method_data.expected_channels
    expected_quality := method_data.quality
    expected_complexity := estimate_complexity method_data.method
    expected_cost := estimate_cost method_data.expected_channels
    colors_used := method_data.expected_channels
    colors_total := context.color_count
    utilization_percentage :=
      (method_data.expected_channels : ℚ) / (max context.color_count 1 : ℚ) * 100 }

/-- Stable insertion preserving the order of equal scores
(`list.sort(key=score, reverse=True)` is stable). -/
def insertByScoreDesc (x : MethodRecommendation) :
    List MethodRecommendation → List MethodRecommendation
  | [] => [x]
  | y :: ys =>
      if y.score < x.score then x :: y :: ys
      else y :: insertByScoreDesc x ys

/-- Stable sort by score, descending. -/
def sortByScoreDesc (l : List MethodRecommendation) :
    List MethodRecommendation :=
  l.foldr insertByScoreDesc []

/-- Model of `AIMethodAnalyzer._score_all_methods` (lines 277–297): primary
recommendation followed by the alternatives, sorted by score descending. -/
def score_all_methods (context : AnalysisContext)
    (ai_recommendations : RuleRecommendations) : List MethodRecommendation :=
  sortByScoreDesc
    ((create_method_recommendation ai_recommendations.recommended context) ::
      ai_recommendations.alternatives.map
        (fun alt => create_method_recommendation alt context))

/-- The full rule-based path of the advisor: what
`analyze_and_recommend` computes for `all_methods` when the AI model is
unavailable (`self.model is None`). -/
def rule_based_methods (context : AnalysisContext) :
    List MethodRecommendation :=
  score_all_methods context (get_rule_based_recommendations context)

/-- Four-color palette exercising the fourth halftone angle. -/
def c4Palette : List PaletteColor :=
  [{ name := "A", rgb := (255, 0, 0), lab := (50, 60, 50) },
   { name := "B", rgb := (0, 255, 0), lab := (80, -70, 70) },
   { name := "C", rgb := (0, 0, 255), lab := (30, 60, -100) },
   { name := "D", rgb := (0, 0, 0), lab := (0, 0, 0) }]

/-- A 3-pixel color-based candidate mask on a 1×3 image. -/
def c9ColorMask : Mask := [[true, true, true]]

/-- The primary method/score that claim C8 predicts for the rule chain of
`_get_rule_based_recommendations`, read off the spec's rule list. -/
def rulePrimary (context : AnalysisContext) : SeparationMethod × ℚ :=
  if context.color_count ≤ 6 ∧
      context.image_characteristics.edge_type = "sharp" ∧
      ¬context.image_characteristics.has_gradients then
    (SeparationMethod.SPOT_COLOR, 90)
  else if context.image_characteristics.texture_type = "photo" ∧
      context.image_characteristics.has_gradients then
    (SeparationMethod.SIMULATED_PROCESS, 85)
  else if 6 ≤ context.color_count ∧ context.color_count ≤ 12 then
    (SeparationMethod.INDEX_COLOR, 80)
  else (SeparationMethod.SIMULATED_PROCESS, 75)

/-- A one-pixel region whose recommended method is spot color (used to
exercise the failure-isolation path of the regional separator). -/
def c7Region : ImageRegion :=
  { id := "region_1"
    region_type := RegionType.VECTOR
    complexity := ContentComplexity.SIMPLE
    mask := [[true]]
    bounding_box := (0, 0, 1, 1)
    pixel_count := 1
    coverage_percentage := 100
    dominant_colors := []
    has_gradients := false
    edge_sharpness := 1
    texture_score := 0
    recommended_method := SeparationMethod.SPOT_COLOR
    method_confidence := 1
    reasoning := ""
    priority := 1 }

/-- A region analysis holding just `c7Region`. -/
def c7Analysis : RegionAnalysisResult :=
  { regions := [c7Region]
    region_count := 1
    strategy_summary := ""
    complexity_rating := "simple"
    method_assignments := []
    expected_quality := "good"
    expected_channels := 1
    overall_confidence := 1 }

/-- One-color palette for the single-region merge witness. -/
def c6Palette : List PaletteColor :=
  [{ name := "Red", rgb := (255, 0, 0), lab := (50, 60, 50) }]

/-- A regional channel raster for the merge witness. -/
def c6Channel : SeparationChannel :=
  { name := "Red"
    data := [[200]]
    color_info := { rgb := (255, 0, 0), lab := (50, 60, 50) }
    order := 1 }

/-- A successful whole-image regional result for the merge witness. -/
def c6Result : RegionalSeparationResult :=
  { region_id := "region_1"
    region := c7Region
    method := SeparationMethod.SPOT_COLOR
    channels := [c6Channel]
    success := true }

/-! ## Theorems -/

/-- Helper: the coordinator's failure message is never the empty string. -/
theorem sep_failed_message_ne_empty (e : String) :
    "Separation failed: " ++ e ≠ "" := by
  intro h
  have h2 := congrArg String.length h
  simp [String.length_append] at h2
  exact absurd h2.1 (by decide)

/-- Claim **C1**: `execute_separation` never lets an exception escape: when the
requested method is not in the engine table, or the dispatched engine
raises, the returned `SeparationResult` has `success = false`, an empty
channel list and a non-empty error message. -/
theorem C1_execute_separation_failure_contract
    (engines : EngineTable) (rgb_array : RGBImage) (method : SeparationMethod)
    (palette : List PaletteColor) (analysis_data : AnalysisDict)
    (parameters : Params)
    (h : dispatchFails engines rgb_array method palette analysis_data parameters) :
    (execute_separation engines rgb_array method palette analysis_data
        parameters).success = false ∧
    (execute_separation engines rgb_array method palette analysis_data
        parameters).channels = [] ∧
    (execute_separation engines rgb_array method palette analysis_data
        parameters).error_message ≠ "" := by
  unfold dispatchFails at h
  unfold execute_separation
  split
  next => exact ⟨rfl, rfl, sep_failed_message_ne_empty _⟩
  next engine hl =>
    rw [hl] at h
    obtain ⟨e, he⟩ := h
    rw [he]
    exact ⟨rfl, rfl, sep_failed_message_ne_empty _⟩

/-- Witness for C1: empty engine table (the method is then unknown). -/
theorem C1_execute_separation_failure_contract_witness :
    dispatchFails [] [] SeparationMethod.CMYK [] [] [] ∧
    ((execute_separation [] [] SeparationMethod.CMYK [] [] []).success = false ∧
     (execute_separation [] [] SeparationMethod.CMYK [] [] []).channels = [] ∧
     (execute_separation [] [] SeparationMethod.CMYK [] [] []).error_message ≠ "") :=
  ⟨trivial, C1_execute_separation_failure_contract [] [] SeparationMethod.CMYK
    [] [] [] trivial⟩

/-- Claim **C2**: every result of `execute_separation` has
`total_coverage ≤ 100` — the channel coverage sum is capped with
`min(total, 100)` on success, and failures carry the default `0`. -/
theorem C2_total_coverage_le_100
    (engines : EngineTable) (rgb_array : RGBImage) (method : SeparationMethod)
    (palette : List PaletteColor) (analysis_data : AnalysisDict)
    (parameters : Params) :
    (execute_separation engines rgb_array method palette analysis_data
        parameters).total_coverage ≤ 100 := by
  unfold execute_separation
  split
  · show (0 : ℚ) ≤ 100
    norm_num
  · split
    · show (0 : ℚ) ≤ 100
      norm_num
    · exact min_le_right _ _

/-- Claim **C4 (amended)**: the `i`-th spot-color channel has halftone angle
`45 + 15 i` degrees — with no reduction mod 90 — and frequency 55. -/
theorem C4_halftone_angle_amended (rgb_to_lab : RGBImage → LabImage)
    (rgb_array : RGBImage) (palette : List PaletteColor)
    (analysis_data : AnalysisDict) (parameters : Params)
    (i : ℕ) (hi : i < palette.length) :
    ∃ ch, (SpotColorEngine.separate rgb_to_lab rgb_array palette analysis_data
        parameters).get? i = some ch ∧
      ch.halftone_angle = 45 + 15 * (i : ℚ) ∧ ch.halftone_frequency = 55 := by
  have h1 : palette.enum.get? i = some (i, palette.get ⟨i, hi⟩) := by
    rw [List.get?_enum]
    simp [List.get?_eq_get hi]
  unfold SpotColorEngine.separate
  rw [List.get?_map, h1]
  exact ⟨_, rfl, by push_cast; ring, rfl⟩

/-- Witness for C4 (amended): second channel of a two-color palette has
angle `45 + 15`. -/
theorem C4_halftone_angle_amended_witness :
    (1 < ([{ name := "A", rgb := (255, 0, 0), lab := (50, 60, 50) },
           { name := "B", rgb := (0, 0, 0), lab := (0, 0, 0) }] :
        List PaletteColor).length) ∧
    ∃ ch, (SpotColorEngine.separate (fun _ => []) []
        [{ name := "A", rgb := (255, 0, 0), lab := (50, 60, 50) },
         { name := "B", rgb := (0, 0, 0), lab := (0, 0, 0) }] [] []).get? 1 = some ch ∧
      ch.halftone_angle = 45 + 15 * ((1 : ℕ) : ℚ) ∧ ch.halftone_frequency = 55 :=
  ⟨by decide, C4_halftone_angle_amended (fun _ => []) [] _ [] [] 1 (by decide)⟩

/-- Claim **C4 (counterexample)**: the fourth channel (index 3) gets halftone
angle `45 + 15·3 = 90`, while `(45 + 15·3) mod 90 = 0`, so the claimed
`mod 90` reduction does not happen in the code. -/
theorem C4_halftone_angle_counterexample :
    ((SpotColorEngine.separate (fun _ => []) [] c4Palette [] []).get? 3).map
        (fun ch => ch.halftone_angle) = some 90 ∧
    ((45 + 15 * 3) % 90 : ℕ) = 0 ∧
    (90 : ℚ) ≠ (((45 + 15 * 3) % 90 : ℕ) : ℚ) := by
  refine ⟨?_, by norm_num, by norm_num⟩
  unfold SpotColorEngine.separate c4Palette
  simp [List.get?_map, List.get?_enum, List.get?]
  norm_num

/-- Helper: composing pointwise maps. -/
theorem map2D_map2D (f : α → β) (g : β → γ) (m : List (List α)) :
    map2D g (map2D f m) = map2D (fun a => g (f a)) m := by
  simp [map2D, List.map_map, Function.comp]

/-- Helper: pointwise maps agree when the functions agree on all entries. -/
theorem map2D_congr {f g : α → β} {m : List (List α)}
    (h : ∀ row ∈ m, ∀ p ∈ row, f p = g p) : map2D f m = map2D g m := by
  unfold map2D
  refine List.map_congr_left (fun row hrow => ?_)
  exact List.map_congr_left (fun p hp => h row hrow p hp)

/-- Helper: the CMYK decomposition of pure red is `(0, 255, 255, 0)`. -/
theorem rgb_to_cmyk_pixel_red : rgb_to_cmyk_pixel (255, 0, 0) = (0, 255, 255, 0) := by
  unfold rgb_to_cmyk_pixel clipU8
  norm_num
  decide

/-- Claim **C5**: on an image whose every pixel is pure red `(255,0,0)`, the
CMYK engine produces rasters Cyan = 0, Magenta = 255, Yellow = 255,
Black = 0 everywhere (the engine follows the `K = 1 − max(R,G,B)`,
`C,M,Y = (1−ch−K)/(1−K)` decomposition with an ε denominator — see
`rgb_to_cmyk_pixel`). -/
theorem C5_cmyk_pure_red (rgb_to_lab_single : RGBPix → LabPix)
    (rgb_array : RGBImage) (palette : List PaletteColor)
    (analysis_data : AnalysisDict) (parameters : Params)
    (hred : ∀ row ∈ rgb_array, ∀ p ∈ row, p = ((255, 0, 0) : RGBPix)) :
    ((CMYKEngine.separate rgb_to_lab_single rgb_array palette analysis_data
        parameters).map (fun ch => ch.name) = ["Cyan", "Magenta", "Yellow", "Black"]) ∧
    ((CMYKEngine.separate rgb_to_lab_single rgb_array palette analysis_data
        parameters).map (fun ch => ch.data) =
      [map2D (fun _ => 0) rgb_array, map2D (fun _ => 255) rgb_array,
       map2D (fun _ => 255) rgb_array, map2D (fun _ => 0) rgb_array]) := by
  have hcmyk : map2D rgb_to_cmyk_pixel rgb_array =
      map2D (fun _ => ((0, 255, 255, 0) : ℕ × ℕ × ℕ × ℕ)) rgb_array := by
    refine map2D_congr (fun row hrow p hp => ?_)
    rw [hred row hrow p hp, rgb_to_cmyk_pixel_red]
  unfold CMYKEngine.separate
  rw [hcmyk]
  simp [List.enum, List.enumFrom, map2D_map2D]

/-- Witness for C5: a one-pixel pure-red image. -/
theorem C5_cmyk_pure_red_witness :
    (∀ row ∈ ([[(255, 0, 0)]] : RGBImage), ∀ p ∈ row, p = ((255, 0, 0) : RGBPix)) ∧
    ((CMYKEngine.separate (fun _ => ((0 : ℚ), 0, 0)) [[(255, 0, 0)]] [] [] []).map
        (fun ch => ch.name) = ["Cyan", "Magenta", "Yellow", "Black"]) ∧
    ((CMYKEngine.separate (fun _ => ((0 : ℚ), 0, 0)) [[(255, 0, 0)]] [] [] []).map
        (fun ch => ch.data) =
      [map2D (fun _ => 0) ([[(255, 0, 0)]] : RGBImage),
       map2D (fun _ => 255) ([[(255, 0, 0)]] : RGBImage),
       map2D (fun _ => 255) ([[(255, 0, 0)]] : RGBImage),
       map2D (fun _ => 0) ([[(255, 0, 0)]] : RGBImage)]) :=
  ⟨by decide,
   C5_cmyk_pure_red (fun _ => ((0 : ℚ), 0, 0)) [[(255, 0, 0)]] [] [] [] (by decide)⟩

/-- Claim **C9 (amended)**: in the color phase of `_combine_segmentations`, the
still-unassigned portion of a color mask is kept as a new region iff both
the mask and that portion have *more than 500* pixels — a hardcoded
threshold, independent of the caller's `min_region_size` (which is applied
only later, by `_filter_small_regions`). -/
theorem C9_combine_color_threshold_amended (st : CombineState) (mask : Mask) :
    ((colorStep st mask).combined =
        st.combined ++ [unassignedOf st.vote_map mask] ↔
      500 < count2D (fun b => b) mask ∧
        500 < count2D (fun b => b) (unassignedOf st.vote_map mask)) ∧
    (¬(500 < count2D (fun b => b) mask ∧
        500 < count2D (fun b => b) (unassignedOf st.vote_map mask)) →
      colorStep st mask = st) := by
  unfold colorStep
  dsimp only
  split_ifs with h1 h2
  · exact ⟨iff_of_true rfl ⟨h1, h2⟩, fun hn => absurd ⟨h1, h2⟩ hn⟩
  · refine ⟨iff_of_false (by simp) (fun hc => h2 hc.2), fun _ => rfl⟩
  · refine ⟨iff_of_false (by simp) (fun hc => h1 hc.1), fun _ => rfl⟩

/-- Witness for C9 (amended): a small mask (1 pixel ≤ 500) is dropped. -/
theorem C9_combine_color_threshold_amended_witness :
    ¬(500 < count2D (fun b => b) ([[true]] : Mask) ∧
      500 < count2D (fun b => b)
        (unassignedOf (const2D 1 1 0) ([[true]] : Mask))) ∧
    colorStep { vote_map := const2D 1 1 0, region_id := 1, combined := [] }
      ([[true]] : Mask) =
      { vote_map := const2D 1 1 0, region_id := 1, combined := [] } :=
  ⟨by decide,
   (C9_combine_color_threshold_amended
     { vote_map := const2D 1 1 0, region_id := 1, combined := [] }
     [[true]]).2 (by decide)⟩

/-- Claim **C9 (counterexample)**: with `min_region_size = 2`, a color region
whose unassigned portion has 3 ≥ 2 pixels is nevertheless discarded by
`_combine_segmentations` (3 is not over the hardcoded 500), so the kept
regions are not those with at least `min_region_size` unassigned pixels. -/
theorem C9_combine_color_threshold_counterexample :
    combine_segmentations [] [c9ColorMask] [] (1, 3) = [] ∧
    unassignedOf (const2D 1 3 0) c9ColorMask = c9ColorMask ∧
    count2D (fun b => b) c9ColorMask = 3 ∧
    (2 : ℕ) ≤ count2D (fun b => b) c9ColorMask := by decide

/-- Claim **C8**: with the advisory service unavailable, the advisor's
rule-based path is a pure function of the context:  the ranked list is the
rule-chain primary (SpotColor 90 / SimulatedProcess 85 / IndexColor 80 /
SimulatedProcess 75, per `rulePrimary`) followed by the CMYK alternative
scored 65, and it is sorted by score descending. -/
theorem C8_rule_based_fallback (context : AnalysisContext) :
    (rule_based_methods context).map (fun m => (m.method, m.score)) =
      [rulePrimary context, (SeparationMethod.CMYK, 65)] ∧
    List.Chain' (fun a b => b.score ≤ a.score) (rule_based_methods context) := by
  unfold rule_based_methods score_all_methods get_rule_based_recommendations
    rulePrimary
  dsimp only
  split_ifs with hc1 hc2 hc3 <;>
  · constructor
    · simp [sortByScoreDesc, insertByScoreDesc, create_method_recommendation,
        SeparationMethod.ofString]
      norm_num
    · simp [sortByScoreDesc, insertByScoreDesc, create_method_recommendation,
        List.chain'_cons]
      norm_num

/-- Helper: `mergeStep` leaves the accumulator unchanged on a failed
regional result (`if not regional.success: continue`). -/
theorem mergeStep_skips_failure (blend : Bool) (blur : Mask → ℕ → List (List ℚ))
    (br : ℕ) (color : PaletteColor) (acc : List (List ℚ))
    (r : RegionalSeparationResult) (h : r.success = false) :
    mergeStep blend blur br color acc r = acc := by
  unfold mergeStep
  rw [h]
  rfl

/-- Helper: the per-color accumulation folds identically over a result
list and over its successful sublist. -/
theorem foldl_mergeStep_filter (blend : Bool) (blur : Mask → ℕ → List (List ℚ))
    (br : ℕ) (color : PaletteColor) (rs : List RegionalSeparationResult)
    (acc : List (List ℚ)) :
    rs.foldl (mergeStep blend blur br color) acc =
      (rs.filter (fun r => r.success)).foldl (mergeStep blend blur br color) acc := by
  induction rs generalizing acc with
  | nil => rfl
  | cons r rest ih =>
    by_cases h : r.success
    · simp only [List.filter_cons, h, List.foldl_cons, if_true]
      exact ih _
    · have hfalse : r.success = false := by simpa using h
      simp only [List.filter_cons, hfalse, List.foldl_cons, Bool.false_eq_true,
        if_false, mergeStep_skips_failure blend blur br color acc r hfalse]
      exact ih _

/-- Helper: merged channels are unchanged when failed regional results are
dropped — a failed region contributes nothing. -/
theorem merge_skips_failures (blur : Mask → ℕ → List (List ℚ))
    (rs : List RegionalSeparationResult) (palette : List PaletteColor)
    (image_shape : ℕ × ℕ) (parameters : HybridSeparationParameters) :
    ChannelMerger.merge_regional_channels blur rs palette image_shape parameters =
      ChannelMerger.merge_regional_channels blur (rs.filter (fun r => r.success))
        palette image_shape parameters := by
  unfold ChannelMerger.merge_regional_channels
  dsimp only
  refine List.map_congr_left (fun ic _ => ?_)
  rw [foldl_mergeStep_filter]

/-- Claim **C7**: the regional separator returns exactly one result per region
in order; a region whose engine raises yields a `success = false` entry
with no channels and the error recorded, while regions whose engine
succeeds are processed normally; and the channel merger ignores failed
results entirely. -/
theorem C7_regional_failure_isolation
    (spot_engine simulated_engine index_engine : EngineFn)
    (rgb_image : RGBImage) (lab_image : LabImage)
    (region_analysis : RegionAnalysisResult) (palette : List PaletteColor)
    (analysis_data : AnalysisDict) :
    (RegionalSeparator.separate_regions spot_engine simulated_engine index_engine
        rgb_image lab_image region_analysis palette analysis_data).length =
      region_analysis.regions.length ∧
    (∀ i (hi : i < region_analysis.regions.length),
      (∀ e, (get_engine_for_method spot_engine simulated_engine index_engine
              (region_analysis.regions.get ⟨i, hi⟩).recommended_method)
            (extract_region_image ((255, 255, 255) : RGBPix) rgb_image
              (region_analysis.regions.get ⟨i, hi⟩).mask)
            palette analysis_data
            (get_parameters_for_region (region_analysis.regions.get ⟨i, hi⟩)) =
          Except.error e →
        (RegionalSeparator.separate_regions spot_engine simulated_engine
            index_engine rgb_image lab_image region_analysis palette
            analysis_data).get? i =
          some { region_id := (region_analysis.regions.get ⟨i, hi⟩).id
                 region := region_analysis.regions.get ⟨i, hi⟩
                 method := (region_analysis.regions.get ⟨i, hi⟩).recommended_method
                 channels := []
                 success := false
                 error := some e }) ∧
      (∀ chs, (get_engine_for_method spot_engine simulated_engine index_engine
              (region_analysis.regions.get ⟨i, hi⟩).recommended_method)
            (extract_region_image ((255, 255, 255) : RGBPix) rgb_image
              (region_analysis.regions.get ⟨i, hi⟩).mask)
            palette analysis_data
            (get_parameters_for_region (region_analysis.regions.get ⟨i, hi⟩)) =
          Except.ok chs →
        (RegionalSeparator.separate_regions spot_engine simulated_engine
            index_engine rgb_image lab_image region_analysis palette
            analysis_data).get? i =
          some { region_id := (region_analysis.regions.get ⟨i, hi⟩).id
                 region := region_analysis.regions.get ⟨i, hi⟩
                 method := (region_analysis.regions.get ⟨i, hi⟩).recommended_method
                 channels := chs
                 success := true })) ∧
    (∀ (blur : Mask → ℕ → List (List ℚ)) (rs : List RegionalSeparationResult)
        (pal : List PaletteColor) (shape : ℕ × ℕ)
        (params : HybridSeparationParameters),
      ChannelMerger.merge_regional_channels blur rs pal shape params =
        ChannelMerger.merge_regional_channels blur
          (rs.filter (fun r => r.success)) pal shape params) := by
  refine ⟨by simp [RegionalSeparator.separate_regions], fun i hi => ⟨?_, ?_⟩,
    fun blur rs pal shape params => merge_skips_failures blur rs pal shape params⟩
  · intro e he
    unfold RegionalSeparator.separate_regions
    rw [List.get?_map, List.get?_eq_get hi]
    simp only [Option.map_some']
    rw [he]
  · intro chs hok
    unfold RegionalSeparator.separate_regions
    rw [List.get?_map, List.get?_eq_get hi]
    simp only [Option.map_some']
    rw [hok]

/-- Witness for C7: a failing spot engine on a one-region analysis yields
the recorded failure entry. -/
theorem C7_regional_failure_isolation_witness :
    (RegionalSeparator.separate_regions (fun _ _ _ _ => Except.error "boom")
        (fun _ _ _ _ => Except.ok []) (fun _ _ _ _ => Except.ok [])
        [[(0, 0, 0)]] [[((0 : ℚ), 0, 0)]] c7Analysis [] []).get? 0 =
      some { region_id := "region_1"
             region := c7Region
             method := SeparationMethod.SPOT_COLOR
             channels := []
             success := false
             error := some "boom" } := by
  have h := ((C7_regional_failure_isolation
      (fun _ _ _ _ => Except.error "boom") (fun _ _ _ _ => Except.ok [])
      (fun _ _ _ _ => Except.ok []) [[(0, 0, 0)]] [[((0 : ℚ), 0, 0)]]
      c7Analysis [] []).2.1 0 (by decide)).1 "boom" rfl
  exact h

/-- Helper: hard-edge combination of a row under an all-true mask starting
from a zero accumulator gives the (cast) channel row back. -/
theorem zipWith3_true_zero_row (row : List ℕ) (W : ℕ) (h : row.length = W) :
    zipWith3 (fun (m : Bool) (a : ℚ) (d : ℕ) => if m then max a (d : ℚ) else a)
      (List.replicate W true) (List.replicate W (0 : ℚ)) row =
      row.map (fun (n : ℕ) => (n : ℚ)) := by
  subst h
  induction row with
  | nil => rfl
  | cons d ds ih =>
    simp only [List.length_cons, List.replicate_succ, zipWith3, List.map_cons, ih]
    congr 1
    simp [max_eq_right (show (0 : ℚ) ≤ (d : ℚ) from Nat.cast_nonneg d)]

/-- Helper: 2-D version of `zipWith3_true_zero_row`. -/
theorem zipWith2D3_true_zero (data : Raster) (H W : ℕ)
    (hlen : data.length = H) (hw : ∀ row ∈ data, row.length = W) :
    zipWith2D3 (fun (m : Bool) (a : ℚ) (d : ℕ) => if m then max a (d : ℚ) else a)
      (const2D H W true) (const2D H W (0 : ℚ)) data =
      map2D (fun (n : ℕ) => (n : ℚ)) data := by
  subst hlen
  unfold zipWith2D3 const2D map2D
  induction data with
  | nil => rfl
  | cons row rows ih =>
    simp only [List.length_cons, List.replicate_succ, zipWith3, List.map_cons]
    congr 1
    · exact zipWith3_true_zero_row row W (hw row (List.mem_cons_self _ _))
    · exact ih (fun r hr => hw r (List.mem_cons_of_mem _ hr))

/-- Helper: clipping and uint8-casting a cast byte is the identity. -/
theorem clipU8_natCast (n : ℕ) (h : n ≤ 255) : clipU8 ((n : ℕ) : ℚ) = n := by
  unfold clipU8
  rw [max_eq_left (Nat.cast_nonneg n),
    min_eq_left (by exact_mod_cast h : ((n : ℕ) : ℚ) ≤ 255),
    Int.floor_natCast, Int.toNat_natCast]

/-- Helper: `map2D id` is the identity. -/
theorem map2D_id (m : List (List α)) : map2D (fun a => a) m = m := by
  simp [map2D]

/-- Helper: clip-cast of a uint8 raster is the raster itself. -/
theorem map2D_clip_cast (data : Raster)
    (hvals : ∀ row ∈ data, ∀ v ∈ row, v ≤ 255) :
    map2D clipU8 (map2D (fun (n : ℕ) => (n : ℚ)) data) = data := by
  rw [map2D_map2D]
  rw [map2D_congr (fun row hrow v hv => clipU8_natCast v (hvals row hrow v hv))]
  exact map2D_id data

/-- Helper: entries of `zipWith3` through `get?`. -/
theorem zipWith3_get? (f : α → β → γ → δ) (a : List α) (b : List β)
    (c : List γ) (n : ℕ) :
    (zipWith3 f a b c).get? n =
      (a.get? n).bind (fun x => (b.get? n).bind (fun y =>
        (c.get? n).map (fun z => f x y z))) := by
  induction a generalizing b c n with
  | nil => simp [zipWith3]
  | cons x xs ih =>
    cases b with
    | nil => simp [zipWith3]
    | cons y ys =>
      cases c with
      | nil => simp [zipWith3]
      | cons z zs =>
        cases n with
        | zero => simp [zipWith3]
        | succ n => simpa [zipWith3] using ih ys zs n

/-- Claim **C6**: merging a single successful regional result whose mask covers
the whole image, with blending disabled, reproduces — for each palette
color with a matching channel — that channel's raster exactly; and the
hard-edge accumulation at masked pixels is the max of the accumulator and
the channel value. -/
theorem C6_single_region_merge_idempotent (blur : Mask → ℕ → List (List ℚ))
    (r : RegionalSeparationResult) (palette : List PaletteColor)
    (H W : ℕ) (params : HybridSeparationParameters)
    (hblend : params.blend_edges = false)
    (hsucc : r.success = true)
    (hmask : r.region.mask = const2D H W true)
    (i : ℕ) (hi : i < palette.length) (ch : SeparationChannel)
    (hfind : find_matching_channel r.channels (palette.get ⟨i, hi⟩) = some ch)
    (hlen : ch.data.length = H) (hwidth : ∀ row ∈ ch.data, row.length = W)
    (hvals : ∀ row ∈ ch.data, ∀ v ∈ row, v ≤ 255) :
    (∃ mc, (ChannelMerger.merge_regional_channels blur [r] palette (H, W)
        params).get? i = some mc ∧ mc.data = ch.data) ∧
    (∀ (acc : List (List ℚ)) (y x : ℕ), acc.length = H →
      (∀ row ∈ acc, row.length = W) → y < H → x < W →
      get2D (mergeStep params.blend_edges blur params.blend_radius
          (palette.get ⟨i, hi⟩) acc r) y x 0 =
        max (get2D acc y x 0) ((get2D ch.data y x 0 : ℕ) : ℚ)) := by
  have hstep : ∀ acc, mergeStep params.blend_edges blur params.blend_radius
      (palette.get ⟨i, hi⟩) acc r =
      zipWith2D3 (fun (m : Bool) (a : ℚ) (d : ℕ) => if m then max a (d : ℚ) else a)
        r.region.mask acc ch.data := by
    intro acc
    unfold mergeStep
    rw [hsucc, hfind, hblend]
    rfl
  constructor
  · have h1 : palette.enum.get? i = some (i, palette.get ⟨i, hi⟩) := by
      rw [List.get?_enum]
      simp [List.get?_eq_get hi]
    unfold ChannelMerger.merge_regional_channels
    rw [List.get?_map, h1]
    refine ⟨_, rfl, ?_⟩
    show map2D clipU8 ([r].foldl _ _) = ch.data
    rw [List.foldl_cons, List.foldl_nil, hstep, hmask,
      zipWith2D3_true_zero ch.data H W hlen hwidth, map2D_clip_cast ch.data hvals]
  · intro acc y x haccl haccw hy hx
    rw [hstep, hmask]
    have hyacc : y < acc.length := haccl ▸ hy
    have hydat : y < ch.data.length := hlen ▸ hy
    have haccrow := List.get?_eq_get hyacc
    have hdatrow := List.get?_eq_get hydat
    have hxacc : x < (acc.get ⟨y, hyacc⟩).length := by
      rw [haccw _ (List.get?_mem haccrow)]
      exact hx
    have hxdat : x < (ch.data.get ⟨y, hydat⟩).length := by
      rw [hwidth _ (List.get?_mem hdatrow)]
      exact hx
    unfold get2D zipWith2D3 const2D
    rw [zipWith3_get?, haccrow, hdatrow]
    have hmaskrow : (List.replicate H (List.replicate W true)).get? y =
        some (List.replicate W true) := by
      simp [List.getElem?_replicate, hy]
    rw [hmaskrow]
    simp only [Option.some_bind, Option.map_some']
    rw [zipWith3_get?, List.get?_eq_get hxacc, List.get?_eq_get hxdat]
    have hmaskcell : (List.replicate W true).get? x = some true := by
      simp [List.getElem?_replicate, hx]
    rw [hmaskcell]
    simp

/-- Witness for C6: a one-pixel whole-image region with channel value 200
merges to exactly that raster. -/
theorem C6_single_region_merge_idempotent_witness :
    ∃ mc, (ChannelMerger.merge_regional_channels (fun _ _ => []) [c6Result]
        c6Palette (1, 1) { blend_edges := false }).get? 0 = some mc ∧
      mc.data = c6Channel.data :=
  (C6_single_region_merge_idempotent (fun _ _ => []) c6Result c6Palette 1 1
    { blend_edges := false } rfl rfl (by decide) 0 (by decide) c6Channel
    (by decide) rfl (by decide) (by decide)).1

/-- Helper: `spotPixelValue` computes exactly the uint8 truncation of the
real-valued intensity `255 * (1 - √dsq / tol)` that the float code
evaluates, for `tol > 0`. -/
theorem spotPixelValue_eq_floor (dsq tol : ℚ) (hdsq : 0 ≤ dsq) (htol : 0 < tol) :
    spotPixelValue dsq (tol ^ 2) =
      if Real.sqrt (dsq : ℝ) ≤ (tol : ℝ) then
        Int.toNat ⌊255 * (1 - Real.sqrt (dsq : ℝ) / (tol : ℝ))⌋
      else 0 := by
  have htolR : (0 : ℝ) < (tol : ℝ) := by exact_mod_cast htol
  by_cases hc : dsq ≤ tol ^ 2
  · have hd : Real.sqrt (dsq : ℝ) ≤ (tol : ℝ) := by
      rw [Real.sqrt_le_left htolR.le]
      exact_mod_cast hc
    rw [if_pos hd]
    unfold spotPixelValue
    rw [if_pos hc]
    have hd0 : 0 ≤ Real.sqrt (dsq : ℝ) := Real.sqrt_nonneg _
    have hd2 : Real.sqrt (dsq : ℝ) ^ 2 = (dsq : ℝ) :=
      Real.sq_sqrt (by exact_mod_cast hdsq)
    set d : ℝ := Real.sqrt (dsq : ℝ)
    set v : ℝ := 255 * (1 - d / tol) with hv
    have hdt : d / tol ≤ 1 := (div_le_one htolR).2 hd
    have hdt0 : 0 ≤ d / tol := div_nonneg hd0 htolR.le
    have hv0 : 0 ≤ v := by rw [hv]; nlinarith
    have hv255 : v ≤ 255 := by rw [hv]; nlinarith
    have hm0 : 0 ≤ ⌊v⌋ := Int.floor_nonneg.2 hv0
    have hm255 : Int.toNat ⌊v⌋ ≤ 255 := by
      have h1 : ⌊v⌋ ≤ ⌊(255 : ℝ)⌋ := Int.floor_mono hv255
      have h2 : ⌊(255 : ℝ)⌋ = 255 := by norm_num
      omega
    have hkey : ∀ k : ℕ, k ≤ 255 →
        ((255 : ℚ) ^ 2 * dsq ≤ tol ^ 2 * ((255 : ℚ) - (k : ℚ)) ^ 2 ↔
          (k : ℝ) ≤ v) := by
      intro k hk
      have h255k : (0 : ℝ) ≤ 255 - (k : ℝ) := by
        have : (k : ℝ) ≤ 255 := by exact_mod_cast hk
        linarith
      have ha : (0 : ℝ) ≤ 255 * d := by positivity
      have hb : (0 : ℝ) ≤ tol * (255 - (k : ℝ)) := mul_nonneg htolR.le h255k
      have hsq : 255 * d ≤ tol * (255 - (k : ℝ)) ↔
          (255 * d) ^ 2 ≤ (tol * (255 - (k : ℝ))) ^ 2 := by
        constructor
        · intro h
          exact pow_le_pow_left ha h 2
        · intro h
          exact le_of_pow_le_pow_left two_ne_zero hb h
      have hlin : (k : ℝ) ≤ v ↔ 255 * d ≤ tol * (255 - (k : ℝ)) := by
        rw [hv]
        constructor
        · intro h
          have hdiv : 255 * (d / tol) ≤ 255 - (k : ℝ) := by nlinarith
          calc 255 * d = 255 * (d / tol) * tol := by field_simp
          _ ≤ (255 - (k : ℝ)) * tol := by nlinarith
          _ = tol * (255 - (k : ℝ)) := by ring
        · intro h
          have h2 : (255 * d) / tol ≤ 255 - (k : ℝ) :=
            (div_le_iff htolR).2 (by nlinarith)
          have h3 : 255 * (d / tol) = 255 * d / tol := (mul_div_assoc 255 d tol).symm
          nlinarith [h2, h3]
      rw [hlin, hsq]
      have hexp : (255 * d) ^ 2 = 255 ^ 2 * (dsq : ℝ) := by
        rw [mul_pow, hd2]
      have hexp2 : (tol * (255 - (k : ℝ))) ^ 2 =
          (tol : ℝ) ^ 2 * (255 - (k : ℝ)) ^ 2 := by ring
      rw [hexp, hexp2]
      constructor
      · intro h
        exact_mod_cast h
      · intro h
        exact_mod_cast h
    have hset : (Finset.range 256).filter
        (fun (k : ℕ) => 1 ≤ k ∧
          (255 : ℚ) ^ 2 * dsq ≤ tol ^ 2 * ((255 : ℚ) - (k : ℚ)) ^ 2) =
        Finset.Icc 1 (Int.toNat ⌊v⌋) := by
      ext k
      simp only [Finset.mem_filter, Finset.mem_range, Finset.mem_Icc]
      constructor
      · rintro ⟨hk256, hk1, hkP⟩
        refine ⟨hk1, ?_⟩
        have hkle : (k : ℝ) ≤ v := (hkey k (by omega)).1 hkP
        have : (k : ℤ) ≤ ⌊v⌋ := Int.le_floor.2 (by exact_mod_cast hkle)
        omega
      · rintro ⟨hk1, hkm⟩
        have hk255 : k ≤ 255 := le_trans hkm hm255
        refine ⟨by omega, hk1, ?_⟩
        refine (hkey k hk255).2 ?_
        have : (k : ℤ) ≤ ⌊v⌋ := by omega
        have := Int.le_floor.1 this
        exact_mod_cast this
    rw [hset, Nat.card_Icc]
    omega
  · have hgt : ¬ Real.sqrt (dsq : ℝ) ≤ (tol : ℝ) := by
      intro hcontra
      rw [Real.sqrt_le_left htolR.le] at hcontra
      exact hc (by exact_mod_cast hcontra)
    rw [if_neg hgt]
    unfold spotPixelValue
    rw [if_neg hc]

/-- Helper: pixel access commutes with `map2D`. -/
theorem entry_map2D (f : α → β) (m : List (List α)) (y x : ℕ) :
    ((map2D f m).get? y).bind (fun row => row.get? x) =
      ((m.get? y).bind (fun row => row.get? x)).map f := by
  unfold map2D
  rw [List.get?_map]
  cases m.get? y with
  | none => rfl
  | some row =>
    simp [List.get?_map]

/-- Helper: the squared Lab distance is nonnegative. -/
theorem labDistSq_nonneg (p q : LabPix) : 0 ≤ labDistSq p q := by
  unfold labDistSq
  positivity

/-- Claim **C3**: each spot-color channel value is the uint8 truncation of
`255 · (1 − d/tolerance)` when the Euclidean Lab distance `d` of the pixel
to the palette color is at most the tolerance, and `0` otherwise; the
tolerance defaults to 10 when the `'color_tolerance'` parameter is
absent. -/
theorem C3_spot_channel_formula
    (rgb_to_lab : RGBImage → LabImage) (rgb_array : RGBImage)
    (palette : List PaletteColor) (analysis_data : AnalysisDict)
    (parameters : Params)
    (htol : 0 < Params.getNum parameters "color_tolerance" 10)
    (i : ℕ) (hi : i < palette.length) (y x : ℕ) (p : LabPix)
    (hp : (((rgb_to_lab rgb_array).get? y).bind (fun row => row.get? x)) = some p) :
    ∃ ch, (SpotColorEngine.separate rgb_to_lab rgb_array palette analysis_data
        parameters).get? i = some ch ∧
      ((ch.data.get? y).bind (fun row => row.get? x)) =
        some
          (if Real.sqrt ((labDistSq p (palette.get ⟨i, hi⟩).lab : ℚ) : ℝ) ≤
              ((Params.getNum parameters "color_tolerance" 10 : ℚ) : ℝ) then
            Int.toNat ⌊255 * (1 -
              Real.sqrt ((labDistSq p (palette.get ⟨i, hi⟩).lab : ℚ) : ℝ) /
                ((Params.getNum parameters "color_tolerance" 10 : ℚ) : ℝ))⌋
          else 0) ∧
      (parameters.lookup "color_tolerance" = none →
        Params.getNum parameters "color_tolerance" 10 = 10) := by
  have h1 : palette.enum.get? i = some (i, palette.get ⟨i, hi⟩) := by
    rw [List.get?_enum]
    simp [List.get?_eq_get hi]
  unfold SpotColorEngine.separate
  rw [List.get?_map, h1]
  refine ⟨_, rfl, ?_, ?_⟩
  · show ((extract_color_channel (rgb_to_lab rgb_array)
        (palette.get ⟨i, hi⟩).lab
        (Params.getNum parameters "color_tolerance" 10)).get? y).bind
        (fun row => row.get? x) = _
    unfold extract_color_channel
    rw [entry_map2D, hp]
    rw [Option.map_some']
    congr 1
    exact spotPixelValue_eq_floor (labDistSq p (palette.get ⟨i, hi⟩).lab)
      (Params.getNum parameters "color_tolerance" 10)
      (labDistSq_nonneg _ _) htol
  · intro hnone
    unfold Params.getNum
    rw [hnone]

/-- Witness for C3: a pixel at Lab distance `√25 = 5` from the palette
color, with the default tolerance 10, gets value `⌊255·(1−5/10)⌋ = 127`. -/
theorem C3_spot_channel_formula_witness :
    (0 : ℚ) < Params.getNum [] "color_tolerance" 10 ∧
    ∃ ch, (SpotColorEngine.separate (fun _ => [[(3, 4, 0)]]) [[(0, 0, 0)]]
        [{ name := "K", rgb := (0, 0, 0), lab := (0, 0, 0) }] [] []).get? 0 =
        some ch ∧
      ((ch.data.get? 0).bind (fun row => row.get? 0)) =
        some
          (if Real.sqrt ((labDistSq (3, 4, 0)
              (([{ name := "K", rgb := (0, 0, 0), lab := (0, 0, 0) }] :
                List PaletteColor).get ⟨0, by decide⟩).lab : ℚ) : ℝ) ≤
              ((Params.getNum [] "color_tolerance" 10 : ℚ) : ℝ) then
            Int.toNat ⌊255 * (1 -
              Real.sqrt ((labDistSq (3, 4, 0)
                (([{ name := "K", rgb := (0, 0, 0), lab := (0, 0, 0) }] :
                  List PaletteColor).get ⟨0, by decide⟩).lab : ℚ) : ℝ) /
                ((Params.getNum [] "color_tolerance" 10 : ℚ) : ℝ))⌋
          else 0) ∧
      (([] : Params).lookup "color_tolerance" = none →
        Params.getNum [] "color_tolerance" 10 = 10) :=
  ⟨by norm_num [Params.getNum],
   C3_spot_channel_formula (fun _ => [[(3, 4, 0)]]) [[(0, 0, 0)]]
     [{ name := "K", rgb := (0, 0, 0), lab := (0, 0, 0) }] [] []
     (by norm_num [Params.getNum]) 0 (by decide) 0 0 (3, 4, 0) rfl⟩

/-- Helper: the running argmin index stays below `N` when the start index
and accumulator index are below `N`. -/
theorem argminAux_lt {N : ℕ} (b : ℕ) (bv : ℚ) (i : ℕ) (vs : List ℚ)
    (hb : b < N) (hi : i + vs.length ≤ N) : argminAux b bv i vs < N := by
  induction vs generalizing b bv i with
  | nil => exact hb
  | cons v vs ih =>
    unfold argminAux
    simp only [List.length_cons] at hi
    split_ifs
    · exact ih i v (i + 1) (by omega) (by omega)
    · exact ih b bv (i + 1) hb (by omega)

/-- Helper: `np.argmin` of a nonempty list is a valid index. -/
theorem argminIdx_lt (l : List ℚ) (h : l ≠ []) : argminIdx l < l.length := by
  cases l with
  | nil => exact absurd rfl h
  | cons v vs =>
    unfold argminIdx
    exact argminAux_lt 0 v 1 vs (by simp) (by simp; omega)

/-- Helper: the nearest palette index is a valid palette index. -/
theorem nearestColorIdx_lt (palette_lab : List LabPix) (p : LabPix)
    (h : palette_lab ≠ []) : nearestColorIdx palette_lab p < palette_lab.length := by
  unfold nearestColorIdx
  have := argminIdx_lt (palette_lab.map (fun c => labDistSq p c)) (by simpa using h)
  simpa using this

/-- Helper: `modifyList` preserves length. -/
theorem modifyList_length (f : α → α) (n : ℕ) (l : List α) :
    (modifyList f n l).length = l.length := by
  induction l generalizing n with
  | nil => cases n <;> rfl
  | cons a rest ih =>
    cases n with
    | zero => rfl
    | succ n => simp [modifyList, ih]

/-- Helper: entries of `modifyList f n l` are entries of `l` or `f`-images
of entries of `l`. -/
theorem mem_modifyList {f : α → α} {n : ℕ} {l : List α} {a : α}
    (h : a ∈ modifyList f n l) : a ∈ l ∨ ∃ b ∈ l, a = f b := by
  induction l generalizing n with
  | nil => exact absurd h (by simp [modifyList])
  | cons c rest ih =>
    cases n with
    | zero =>
      rcases (List.mem_cons).1 h with h1 | h1
      · exact Or.inr ⟨c, List.mem_cons_self _ _, h1⟩
      · exact Or.inl (List.mem_cons_of_mem _ h1)
    | succ n =>
      rcases (List.mem_cons).1 h with h1 | h1
      · exact Or.inl (h1 ▸ List.mem_cons_self _ _)
      · rcases ih h1 with h2 | ⟨b, hb, hab⟩
        · exact Or.inl (List.mem_cons_of_mem _ h2)
        · exact Or.inr ⟨b, List.mem_cons_of_mem _ hb, hab⟩

/-- All entries of a 2-D nat array are below `n`. -/
def allLt (m : List (List ℕ)) (n : ℕ) : Prop :=
  ∀ row ∈ m, ∀ v ∈ row, v < n

/-- Helper: writing an in-range constant preserves `allLt`. -/
theorem allLt_modify2D_const {m : List (List ℕ)} {n c y x : ℕ}
    (hm : allLt m n) (hc : c < n) : allLt (modify2D (fun _ => c) y x m) n := by
  intro row hrow v hv
  rcases mem_modifyList hrow with h1 | ⟨b, hb, hab⟩
  · exact hm row h1 v hv
  · subst hab
    rcases mem_modifyList hv with h2 | ⟨_, _, hab2⟩
    · exact hm b hb v h2
    · subst hab2
      exact hc

/-- Helper: `modify2D` preserves both dimensions. -/
theorem modify2D_dims {m : List (List α)} {H W : ℕ} (f : α → α) (y x : ℕ)
    (h1 : m.length = H) (h2 : ∀ row ∈ m, row.length = W) :
    (modify2D f y x m).length = H ∧
      ∀ row ∈ modify2D f y x m, row.length = W := by
  unfold modify2D
  constructor
  · rw [modifyList_length]
    exact h1
  · intro row hrow
    rcases mem_modifyList hrow with hmem | ⟨b, hb, hab⟩
    · exact h2 row hmem
    · subst hab
      rw [modifyList_length]
      exact h2 b hb

/-- Helper: the Floyd–Steinberg fold keeps every written index valid. -/
theorem fs_fold_allLt (palette_lab : List LabPix) (hpal : palette_lab ≠ [])
    (height width : ℕ) (coords : List (ℕ × ℕ)) (st : FSState)
    (h : allLt st.indices palette_lab.length) :
    allLt ((coords.foldl (fsStep palette_lab height width) st).indices)
      palette_lab.length := by
  induction coords generalizing st with
  | nil => exact h
  | cons c cs ih =>
    rw [List.foldl_cons]
    refine ih _ ?_
    show allLt (fsStep palette_lab height width st c).indices _
    unfold fsStep
    exact allLt_modify2D_const h (nearestColorIdx_lt palette_lab _ hpal)

/-- Helper: the Floyd–Steinberg fold keeps the index map's shape. -/
theorem fs_fold_dims (palette_lab : List LabPix) (height width : ℕ)
    (coords : List (ℕ × ℕ)) (st : FSState) (H W : ℕ)
    (h1 : st.indices.length = H) (h2 : ∀ row ∈ st.indices, row.length = W) :
    ((coords.foldl (fsStep palette_lab height width) st).indices).length = H ∧
      ∀ row ∈ (coords.foldl (fsStep palette_lab height width) st).indices,
        row.length = W := by
  induction coords generalizing st with
  | nil => exact ⟨h1, h2⟩
  | cons c cs ih =>
    rw [List.foldl_cons]
    have hd := modify2D_dims
      (fun _ => nearestColorIdx palette_lab
        (get2D st.work c.1 c.2 (0, 0, 0))) c.1 c.2 h1 h2
    exact ih _ hd.1 hd.2

/-- Helper: shape and validity of `_quantize_to_palette` index maps: the
index map has the image's shape and every entry is a valid palette index
(for a rectangular, possibly dithered image and a nonempty palette). -/
theorem quantize_props (lab_array : LabImage) (palette_lab : List LabPix)
    (dither_method : String) (hpal : palette_lab ≠ [])
    (hrect : ∀ row ∈ lab_array, row.length = (lab_array.headD []).length) :
    (quantize_to_palette lab_array palette_lab dither_method).length =
        lab_array.length ∧
      (∀ row ∈ quantize_to_palette lab_array palette_lab dither_method,
        row.length = (lab_array.headD []).length) ∧
      allLt (quantize_to_palette lab_array palette_lab dither_method)
        palette_lab.length := by
  unfold quantize_to_palette
  split_ifs with hdm
  · have h0 : (const2D lab_array.length (lab_array.headD []).length 0).length =
        lab_array.length := by simp [const2D]
    have h0w : ∀ row ∈ const2D lab_array.length (lab_array.headD []).length (0 : ℕ),
        row.length = (lab_array.headD []).length := by
      intro row hrow
      rw [List.eq_of_mem_replicate hrow]
      simp
    have hdims := fs_fold_dims palette_lab lab_array.length
      (lab_array.headD []).length
      (rowMajorCoords lab_array.length (lab_array.headD []).length)
      { work := lab_array,
        indices := const2D lab_array.length (lab_array.headD []).length 0 }
      lab_array.length (lab_array.headD []).length h0 h0w
    refine ⟨hdims.1, hdims.2, ?_⟩
    refine fs_fold_allLt palette_lab hpal _ _ _ _ ?_
    intro row hrow v hv
    rw [List.eq_of_mem_replicate hrow] at hv
    rw [List.eq_of_mem_replicate hv]
    exact Nat.pos_of_ne_zero (by simpa using hpal)
  · refine ⟨by simp [map2D], ?_, ?_⟩
    · intro row hrow
      unfold map2D at hrow
      rcases List.mem_map.1 hrow with ⟨r0, hr0, hr0eq⟩
      rw [← hr0eq]
      simp [hrect r0 hr0]
    · intro row hrow v hv
      unfold map2D at hrow
      rcases List.mem_map.1 hrow with ⟨r0, hr0, hr0eq⟩
      rw [← hr0eq] at hv
      rcases List.mem_map.1 hv with ⟨p, _, hpeq⟩
      rw [← hpeq]
      exact nearestColorIdx_lt palette_lab p hpal

/-- Helper: a pixel of a rectangular 2-D array exists at any in-bounds
coordinate. -/
theorem entry_exists {m : List (List α)} {H W y x : ℕ}
    (hlen : m.length = H) (hw : ∀ row ∈ m, row.length = W)
    (hy : y < H) (hx : x < W) :
    ∃ v, ((m.get? y).bind (fun row => row.get? x)) = some v ∧
      ∃ row ∈ m, v ∈ row := by
  have hy' : y < m.length := hlen ▸ hy
  have hrow := List.get?_eq_get hy'
  rw [hrow]
  simp only [Option.some_bind]
  have hx' : x < (m.get ⟨y, hy'⟩).length := by
    rw [hw _ (List.get?_mem hrow)]
    exact hx
  exact ⟨_, List.get?_eq_get hx',
    ⟨m.get ⟨y, hy'⟩, List.get?_mem hrow, List.get_mem _ _ _⟩⟩

/-- Helper: the one-in-`n` indicator sums to 1 over `range n`. -/
theorem sum_range_indicator (n v : ℕ) (h : v < n) :
    ((List.range n).map (fun k => if v = k then 1 else 0)).sum = 1 := by
  induction n with
  | zero => omega
  | succ n ih =>
    rw [List.range_succ, List.map_append, List.sum_append]
    by_cases hv : v < n
    · rw [ih hv]
      have : v ≠ n := by omega
      simp [this]
    · have hvn : v = n := by omega
      have hz : ((List.range n).map (fun k => if v = k then 1 else 0)).sum = 0 := by
        apply List.sum_eq_zero
        intro a ha
        rcases List.mem_map.1 ha with ⟨k, hk, hkeq⟩
        have : v ≠ k := by
          have := List.mem_range.1 hk
          omega
        simp [this] at hkeq
        omega
      rw [hvn] at hz
      simp [hz, hvn]

/-- Helper: the counts of values `0..n-1` in a list of values `< n` sum to
the list's length. -/
theorem sum_range_count (l : List ℕ) (n : ℕ) (h : ∀ v ∈ l, v < n) :
    ((List.range n).map (fun k => l.countP (fun a => a == k))).sum = l.length := by
  induction l with
  | nil => simp
  | cons v rest ih =>
    have hcons : ∀ k : ℕ, (v :: rest).countP (fun a => a == k) =
        rest.countP (fun a => a == k) + (if v = k then 1 else 0) := by
      intro k
      rw [List.countP_cons]
      by_cases hv : v = k <;> simp [hv]
    have hmap : ((List.range n).map
        (fun k => (v :: rest).countP (fun a => a == k))) =
        ((List.range n).map (fun k => rest.countP (fun a => a == k) +
          (if v = k then 1 else 0))) := by
      refine List.map_congr_left (fun k _ => hcons k)
    rw [hmap]
    have hsplit : ((List.range n).map (fun k => rest.countP (fun a => a == k) +
        (if v = k then 1 else 0))).sum =
        ((List.range n).map (fun k => rest.countP (fun a => a == k))).sum +
        ((List.range n).map (fun k => if v = k then 1 else 0)).sum := by
      induction (List.range n) with
      | nil => simp
      | cons r rs ihr => simp [ihr]; omega
    rw [hsplit, ih (fun w hw => h w (List.mem_cons_of_mem _ hw)),
      sum_range_indicator n v (h v (List.mem_cons_self _ _))]
    simp [Nat.add_comm]

/-- Helper: casting a sum of naturals to `ℚ` termwise. -/
theorem cast_map_sum (l : List ℕ) (f : ℕ → ℕ) :
    (l.map (fun k => ((f k : ℕ) : ℚ))).sum = (((l.map f).sum : ℕ) : ℚ) := by
  induction l with
  | nil => simp
  | cons a rest ih => simp [ih]

/-- Claim **C10**: for a nonempty palette and a (rectangular, nonempty) image,
the index-color channels partition the image: at every pixel exactly one
channel carries 255 and the others 0, the channel pixel counts sum to
`H·W`, and the coverage percentages sum to 100 — for any `dither_method`
parameter, i.e. with or without Floyd–Steinberg dithering. -/
theorem C10_index_color_partition
    (rgb_to_lab : RGBImage → LabImage) (rgb_array : RGBImage)
    (palette : List PaletteColor) (analysis_data : AnalysisDict)
    (parameters : Params) (H W : ℕ)
    (hpal : palette ≠ [])
    (hH : (rgb_to_lab rgb_array).length = H)
    (hW : ∀ row ∈ rgb_to_lab rgb_array, row.length = W)
    (hH0 : 0 < H) (hW0 : 0 < W) :
    (IndexColorEngine.separate rgb_to_lab rgb_array palette analysis_data
        parameters).length = palette.length ∧
    (∀ y x, y < H → x < W → ∃ j, j < palette.length ∧
      ∀ k (hk : k < (IndexColorEngine.separate rgb_to_lab rgb_array palette
          analysis_data parameters).length),
        ((((IndexColorEngine.separate rgb_to_lab rgb_array palette
            analysis_data parameters).get ⟨k, hk⟩).data.get? y).bind
          (fun row => row.get? x)) = some (if j = k then 255 else 0)) ∧
    ((IndexColorEngine.separate rgb_to_lab rgb_array palette analysis_data
        parameters).map (fun ch => ch.pixel_count)).sum = H * W ∧
    ((IndexColorEngine.separate rgb_to_lab rgb_array palette analysis_data
        parameters).map (fun ch => ch.coverage_percentage)).sum = 100 := by
  have hlab_ne : rgb_to_lab rgb_array ≠ [] := by
    intro hnil
    rw [hnil] at hH
    simp at hH
    omega
  have hhead : ((rgb_to_lab rgb_array).headD []).length = W := by
    cases hl : rgb_to_lab rgb_array with
    | nil => exact absurd hl hlab_ne
    | cons r rs =>
      show r.length = W
      exact hW r (hl ▸ List.mem_cons_self _ _)
  have hrect : ∀ row ∈ rgb_to_lab rgb_array,
      row.length = ((rgb_to_lab rgb_array).headD []).length := by
    intro row hr
    rw [hhead]
    exact hW row hr
  have hplabs_ne : palette.map (fun c => c.lab) ≠ [] := by
    simpa using hpal
  obtain ⟨hqlen, hqw, hqall⟩ := quantize_props (rgb_to_lab rgb_array)
    (palette.map (fun c => c.lab))
    (Params.getStr parameters "dither_method" "floyd_steinberg")
    hplabs_ne hrect
  set indices := quantize_to_palette (rgb_to_lab rgb_array)
    (palette.map (fun c => c.lab))
    (Params.getStr parameters "dither_method" "floyd_steinberg") with hind
  have hilen : indices.length = H := by rw [hqlen, hH]
  have hiw : ∀ row ∈ indices, row.length = W := by
    intro row hr
    rw [hqw row hr, hhead]
  have hallP : allLt indices palette.length := by
    have := hqall
    simpa using this
  have hflat : ∀ v ∈ indices.flatten, v < palette.length := by
    intro v hv
    rcases List.mem_flatten.1 hv with ⟨row, hrow, hmem⟩
    exact hallP row hrow v hmem
  have hsep : IndexColorEngine.separate rgb_to_lab rgb_array palette
      analysis_data parameters =
      palette.enum.map (fun ic =>
        ({ name := ic.2.name
           data := map2D (fun v => if v = ic.1 then 255 else 0) indices
           color_info :=
             { rgb := ic.2.rgb
               lab := ic.2.lab
               pantone := ic.2.pantone_code
               hex := rgb_to_hex ic.2.rgb }
           order := ic.1 + 1
           halftone_angle := 45 + ic.1 * 15
           halftone_frequency := 55
           pixel_count := count2D (fun v => decide (0 < v))
             (map2D (fun v => if v = ic.1 then 255 else 0) indices)
           coverage_percentage :=
             (count2D (fun v => decide (0 < v))
               (map2D (fun v => if v = ic.1 then 255 else 0) indices) : ℚ) /
             (size2D (map2D (fun v => if v = ic.1 then 255 else 0) indices) : ℚ)
             * 100 } : SeparationChannel)) := rfl
  have hcnt : ∀ k : ℕ, count2D (fun v => decide (0 < v))
      (map2D (fun v => if v = k then 255 else 0) indices) =
      indices.flatten.countP (fun a => a == k) := by
    intro k
    unfold count2D map2D
    rw [← List.map_flatten, List.countP_map]
    refine List.countP_congr (fun a _ => ?_)
    by_cases ha : a = k <;> simp [ha]
  have hsize : ∀ k : ℕ, size2D
      (map2D (fun v => if v = k then 255 else 0) indices) =
      indices.flatten.length := by
    intro k
    unfold size2D map2D
    rw [← List.map_flatten, List.length_map]
  have hflatlen : indices.flatten.length = H * W := by
    rw [List.length_join]
    have hrep : indices.map List.length = List.replicate H W := by
      refine List.eq_replicate.2 ⟨by simp [hilen], ?_⟩
      intro b hb
      rcases List.mem_map.1 hb with ⟨row, hrow, heq⟩
      rw [← heq]
      exact hiw row hrow
    rw [hrep, List.sum_const_nat]
  have hsumcnt : ((List.range palette.length).map
      (fun k => indices.flatten.countP (fun a => a == k))).sum = H * W := by
    rw [sum_range_count indices.flatten palette.length hflat, hflatlen]
  refine ⟨by rw [hsep]; simp, ?_, ?_, ?_⟩
  · intro y x hy hx
    obtain ⟨j, hjent, rowj, hrowj, hjmem⟩ := entry_exists hilen hiw hy hx
    refine ⟨j, hallP rowj hrowj j hjmem, ?_⟩
    intro k hk
    simp only [hsep, List.get_eq_getElem, List.getElem_map, List.getElem_enum]
    show ((map2D (fun v => if v = k then 255 else 0) indices).get? y).bind
      (fun row => row.get? x) = _
    rw [entry_map2D, hjent, Option.map_some']
  · rw [hsep, List.map_map]
    have hcomp : ((fun ch => ch.pixel_count) ∘ (fun ic : ℕ × PaletteColor =>
        ({ name := ic.2.name
           data := map2D (fun v => if v = ic.1 then 255 else 0) indices
           color_info :=
             { rgb := ic.2.rgb
               lab := ic.2.lab
               pantone := ic.2.pantone_code
               hex := rgb_to_hex ic.2.rgb }
           order := ic.1 + 1
           halftone_angle := 45 + ic.1 * 15
           halftone_frequency := 55
           pixel_count := count2D (fun v => decide (0 < v))
             (map2D (fun v => if v = ic.1 then 255 else 0) indices)
           coverage_percentage :=
             (count2D (fun v => decide (0 < v))
               (map2D (fun v => if v = ic.1 then 255 else 0) indices) : ℚ) /
             (size2D (map2D (fun v => if v = ic.1 then 255 else 0) indices) : ℚ)
             * 100 } : SeparationChannel))) =
        (fun k => indices.flatten.countP (fun a => a == k)) ∘ Prod.fst := by
      funext ic
      show count2D (fun v => decide (0 < v))
        (map2D (fun v => if v = ic.1 then 255 else 0) indices) = _
      rw [hcnt ic.1]
      rfl
    rw [hcomp, ← List.map_map, List.enum_map_fst, hsumcnt]
  · rw [hsep, List.map_map]
    have hS0 : ((H * W : ℕ) : ℚ) ≠ 0 := by
      have : 0 < H * W := Nat.mul_pos hH0 hW0
      exact_mod_cast this.ne.symm
    have hcomp : ((fun ch => ch.coverage_percentage) ∘ (fun ic : ℕ × PaletteColor =>
        ({ name := ic.2.name
           data := map2D (fun v => if v = ic.1 then 255 else 0) indices
           color_info :=
             { rgb := ic.2.rgb
               lab := ic.2.lab
               pantone := ic.2.pantone_code
               hex := rgb_to_hex ic.2.rgb }
           order := ic.1 + 1
           halftone_angle := 45 + ic.1 * 15
           halftone_frequency := 55
           pixel_count := count2D (fun v => decide (0 < v))
             (map2D (fun v => if v = ic.1 then 255 else 0) indices)
           coverage_percentage :=
             (count2D (fun v => decide (0 < v))
               (map2D (fun v => if v = ic.1 then 255 else 0) indices) : ℚ) /
             (size2D (map2D (fun v => if v = ic.1 then 255 else 0) indices) : ℚ)
             * 100 } : SeparationChannel))) =
        (fun k => ((indices.flatten.countP (fun a => a == k) : ℕ) : ℚ) *
          (100 / ((H * W : ℕ) : ℚ))) ∘ Prod.fst := by
      funext ic
      show (count2D (fun v => decide (0 < v))
          (map2D (fun v => if v = ic.1 then 255 else 0) indices) : ℚ) /
        (size2D (map2D (fun v => if v = ic.1 then 255 else 0) indices) : ℚ)
        * 100 = _
      rw [hcnt ic.1, hsize ic.1, hflatlen]
      show _ = ((indices.flatten.countP (fun a => a == ic.1) : ℕ) : ℚ) *
        (100 / ((H * W : ℕ) : ℚ))
      ring
    rw [hcomp, ← List.map_map, List.enum_map_fst]
    rw [List.sum_map_mul_right, cast_map_sum, hsumcnt]
    field_simp

/-- Witness for C10: a one-pixel image with a one-color palette has
channel counts summing to `1·1` and coverages summing to 100. -/
theorem C10_index_color_partition_witness :
    ((IndexColorEngine.separate (fun _ => [[((0 : ℚ), 0, 0)]]) [[(0, 0, 0)]]
        [{ name := "K", rgb := (0, 0, 0), lab := (0, 0, 0) }] [] []).map
      (fun ch => ch.pixel_count)).sum = 1 * 1 ∧
    ((IndexColorEngine.separate (fun _ => [[((0 : ℚ), 0, 0)]]) [[(0, 0, 0)]]
        [{ name := "K", rgb := (0, 0, 0), lab := (0, 0, 0) }] [] []).map
      (fun ch => ch.coverage_percentage)).sum = 100 :=
  ⟨(C10_index_color_partition (fun _ => [[((0 : ℚ), 0, 0)]]) [[(0, 0, 0)]]
      [{ name := "K", rgb := (0, 0, 0), lab := (0, 0, 0) }] [] [] 1 1
      (by decide) rfl (by decide) (by decide) (by decide)).2.2.1,
   (C10_index_color_partition (fun _ => [[((0 : ℚ), 0, 0)]]) [[(0, 0, 0)]]
      [{ name := "K", rgb := (0, 0, 0), lab := (0, 0, 0) }] [] [] 1 1
      (by decide) rfl (by decide) (by decide) (by decide)).2.2.2⟩
